import Mathlib

/-!
Verification development for the tanks-blitz game server core
(src/cpp/game_server_cpp): Tank, TankPool, GameSession, SessionManager and
PlayerCommandConsumer, shallowly embedded as pure Lean functions.

Modelling conventions:
- nlohmann::json values are modelled by the inductive Json below, with
  numbers as Int (the positions handled by the code are integer-valued).
- std::map / the player and session registries are modelled as association
  lists with unique keys; lookup, insert-or-assign and erase mirror the
  std::map operations used by the source.
- Kafka telemetry is modelled as a trace of Event values appended by each
  operation; Kafka never feeds back into control flow in the source, and the
  model always takes the branch of a valid, connected producer.
- C++ exceptions thrown by handle_command_logic are modelled with Except;
  the source throws before performing any mutation on those paths.
- shared_ptr aliasing of tanks (TankPool.all_tanks_, in_use_tanks_ and the
  session rosters point to the same Tank objects) is modelled by keeping the
  single authoritative tank store TankPool.all_tanks and referring to tanks
  by id everywhere else.
-/

namespace TanksBlitz

mutual

/-- Model of nlohmann::json values as used by the game server (numbers are
integer-valued in every message the server builds or validates). -/
inductive Json where
  | null : Json
  | jbool : Bool → Json
  | num : Int → Json
  | str : String → Json
  | arr : JsonArr → Json
  | obj : JsonObj → Json

/-- Element list of a JSON array. -/
inductive JsonArr where
  | nil : JsonArr
  | cons : Json → JsonArr → JsonArr

/-- Field list of a JSON object (keys with JSON values). -/
inductive JsonObj where
  | nil : JsonObj
  | cons : String → Json → JsonObj → JsonObj

end

deriving instance DecidableEq for Json

/-- Compact construction of object field lists from key-value pairs. -/
def JsonObj.ofList : List (String × Json) → JsonObj
  | [] => .nil
  | (k, v) :: rest => .cons k v (JsonObj.ofList rest)

/-- Field lookup inside a JSON object field list (first match, as in the
unique-key maps nlohmann::json maintains). -/
def JsonObj.lookup : JsonObj → String → Option Json
  | .nil, _ => none
  | .cons k v rest, key => if k = key then some v else rest.lookup key

/-- json::find semantics: field lookup in an object; any non-object json
contains no fields (as in nlohmann::json). -/
def Json.lookup : Json → String → Option Json
  | .obj fields, k => fields.lookup k
  | _, _ => none

/-- json::contains. -/
def Json.hasField (j : Json) (k : String) : Bool :=
  (j.lookup k).isSome

/-- json::operator[] on a const object, used by the source only after a
contains check; absent keys yield null. -/
def Json.get (j : Json) (k : String) : Json :=
  (j.lookup k).getD .null

/-- json::is_number. -/
def Json.isNumber : Json → Bool
  | .num _ => true
  | _ => false

/-- json::get of std::string: throws (modelled as Except.error) when the
value is not a string. -/
def Json.getStr : Json → Except String String
  | .str s => .ok s
  | _ => .error "type mismatch: not a string"

/-- Kafka telemetry events emitted by Tank / TankPool / SessionManager,
keyed by the payload fields that the claims talk about. -/
inductive Event where
  | tankMoved : String → Json → Event
  | tankShot : String → Json → Event
  | tankTookDamage : String → Int → Int → Bool → Event
  | tankDestroyed : String → Json → Event
  | tankReset : String → Event
  | tankActivated : String → Event
  | tankDeactivated : String → Event
  | sessionCreated : String → Event
  | sessionRemoved : String → String → Event
  | playerJoinedSession : String → String → String → Event
  | playerLeftSession : String → String → Event
deriving DecidableEq

/-- Default tank position {"x": 0, "y": 0} (default argument of the Tank
constructor and of Tank::reset). -/
def defaultPosition : Json := .obj (.ofList [("x", .num 0), ("y", .num 0)])

/-- Default tank health (default argument of the Tank constructor and of
Tank::reset). -/
def defaultHealth : Int := 100

/-- Tank state: id, position, health, active flag (tank.h). -/
structure Tank where
  tank_id : String
  position : Json
  health : Int
  is_active : Bool
deriving DecidableEq

namespace Tank

/-- Tank constructor with the default arguments used by TankPool::TankPool:
default position, health 100, inactive. -/
def create (id : String) : Tank :=
  { tank_id := id, position := defaultPosition, health := defaultHealth,
    is_active := false }

/-- The new_position validation performed by Tank::move: contains "x" and
"y" and both are numbers. -/
def validPosition (p : Json) : Bool :=
  p.hasField "x" && p.hasField "y" && (p.get "x").isNumber && (p.get "y").isNumber

/-- Tank::move: ignored when inactive; ignored (with an error log) when
new_position is malformed; otherwise updates position and emits tank_moved. -/
def move (t : Tank) (new_position : Json) : Tank × List Event :=
  if !t.is_active then (t, [])
  else if !(validPosition new_position) then (t, [])
  else ({ t with position := new_position },
        [.tankMoved t.tank_id new_position])

/-- Tank::shoot: ignored when inactive; otherwise emits tank_shot with the
current position. -/
def shoot (t : Tank) : Tank × List Event :=
  if !t.is_active then (t, [])
  else (t, [.tankShot t.tank_id t.position])

/-- Tank::take_damage: non-positive damage is ignored; otherwise health is
decremented and clamped at 0, tank_took_damage is emitted, and
tank_destroyed is additionally emitted whenever the resulting health is 0.
The active flag is never touched here. -/
def take_damage (t : Tank) (damage : Int) : Tank × List Event :=
  if damage ≤ 0 then (t, [])
  else
    let h := t.health - damage
    if h ≤ 0 then
      ({ t with health := 0 },
       [.tankTookDamage t.tank_id damage 0 true,
        .tankDestroyed t.tank_id t.position])
    else
      ({ t with health := h },
       [.tankTookDamage t.tank_id damage h false])

/-- Tank::set_active: no-op when the status is unchanged; otherwise flips
the flag and emits tank_activated / tank_deactivated. -/
def set_active (t : Tank) (b : Bool) : Tank × List Event :=
  if t.is_active = b then (t, [])
  else ({ t with is_active := b },
        [if b then .tankActivated t.tank_id else .tankDeactivated t.tank_id])

/-- Tank::reset with its default arguments: restores default position and
health, forces inactive via set_active(false) (emitting tank_deactivated if
the tank was active), then emits tank_reset. -/
def reset (t : Tank) : Tank × List Event :=
  let t1 := { t with position := defaultPosition, health := defaultHealth }
  let r := t1.set_active false
  (r.1, r.2 ++ [.tankReset t.tank_id])

end Tank

/-- lookup in an association list modelling std::map::find (keys unique). -/
def lookupAssoc {α : Type} : List (String × α) → String → Option α
  | [], _ => none
  | (k', v') :: rest, k => if k' = k then some v' else lookupAssoc rest k

/-- insert-or-assign modelling map[k] = v: replaces the value at the first
occurrence of the key, appends when absent. -/
def updateAssoc {α : Type} : List (String × α) → String → α → List (String × α)
  | [], k, v => [(k, v)]
  | (k', v') :: rest, k, v =>
    if k' = k then (k, v) :: rest else (k', v') :: updateAssoc rest k v

/-- erase modelling std::map::erase(k): removes the first occurrence of the
key (the only one, since keys are unique). -/
def eraseAssoc {α : Type} : List (String × α) → String → List (String × α)
  | [], _ => []
  | (k', v') :: rest, k =>
    if k' = k then rest else (k', v') :: eraseAssoc rest k

/-- TankPool state (tank_pool.h): the authoritative tank store all_tanks_,
the vector available_tank_ids_ (back of the list = back of the vector), the
key set of in_use_tanks_ (its mapped values alias all_tanks_ through
shared_ptr, so the model stores only the ids), and the telemetry trace. -/
structure TankPool where
  all_tanks : List (String × Tank)
  available_tank_ids : List String
  in_use_ids : List String
  events : List Event
deriving DecidableEq

namespace TankPool

/-- TankPool::TankPool(pool_size): creates tanks tank_0 .. tank_{N-1} with
default position/health, inactive, and pushes each id onto the available
vector in creation order. -/
def create (pool_size : Nat) : TankPool :=
  let ids := (List.range pool_size).map (fun i => "tank_" ++ toString i)
  { all_tanks := ids.map (fun id => (id, Tank.create id)),
    available_tank_ids := ids,
    in_use_ids := [],
    events := [] }

/-- TankPool::acquire_tank: returns nullptr when no id is available;
otherwise pops the back id (LIFO), resets then activates that tank, and
inserts the id into the in-use map. The defensive branch for an id missing
from all_tanks_ pushes the id back and returns nullptr. -/
def acquire_tank (p : TankPool) : Option Tank × TankPool :=
  match p.available_tank_ids.getLast? with
  | none => (none, p)
  | some tank_id =>
    let avail := p.available_tank_ids.dropLast
    match lookupAssoc p.all_tanks tank_id with
    | none => (none, { p with available_tank_ids := avail ++ [tank_id] })
    | some tank =>
      let r1 := tank.reset
      let r2 := r1.1.set_active true
      (some r2.1,
       { p with
         all_tanks := updateAssoc p.all_tanks tank_id r2.1,
         available_tank_ids := avail,
         in_use_ids :=
           if p.in_use_ids.contains tank_id then p.in_use_ids
           else p.in_use_ids ++ [tank_id],
         events := p.events ++ r1.2 ++ r2.2 })

/-- TankPool::release_tank(id): warns and does nothing when the id is not
in use; otherwise resets (and thereby deactivates) the tank, erases the id
from the in-use map, and pushes it back onto the available vector unless it
is already there. -/
def release_tank (p : TankPool) (tank_id : String) : TankPool :=
  if !p.in_use_ids.contains tank_id then p
  else
    let upd :=
      match lookupAssoc p.all_tanks tank_id with
      | some tank =>
        let r := tank.reset
        (updateAssoc p.all_tanks tank_id r.1, r.2)
      | none => (p.all_tanks, [])
    { all_tanks := upd.1,
      available_tank_ids :=
        if p.available_tank_ids.contains tank_id then p.available_tank_ids
        else p.available_tank_ids ++ [tank_id],
      in_use_ids := p.in_use_ids.erase tank_id,
      events := p.events ++ upd.2 }

/-- TankPool::get_tank(id): lookup among the in-use tanks only. -/
def get_tank (p : TankPool) (tank_id : String) : Option Tank :=
  if p.in_use_ids.contains tank_id then lookupAssoc p.all_tanks tank_id
  else none

end TankPool

/-- A call against the TankPool public mutating interface. -/
inductive PoolOp where
  | acquire : PoolOp
  | release : String → PoolOp

/-- One TankPool call (the result of acquire_tank is dropped). -/
def TankPool.step (p : TankPool) : PoolOp → TankPool
  | .acquire => p.acquire_tank.2
  | .release id => p.release_tank id

/-- A sequence of TankPool calls, applied in order. -/
def TankPool.run (p : TankPool) (ops : List PoolOp) : TankPool :=
  ops.foldl TankPool.step p

/-- Roster entry stored per player by GameSession (game_session.h
PlayerInSessionData): the tank is stored by id here because the shared_ptr
target lives in TankPool.all_tanks; address info and transport kind as in
the source. -/
structure PlayerData where
  tank_id : String
  address_info : String
  is_udp_player : Bool
deriving DecidableEq

/-- GameSession: session id plus the roster map player_id →
PlayerInSessionData (game_session.h). -/
structure GameSession where
  session_id : String
  players : List (String × PlayerData)
deriving DecidableEq

namespace GameSession

/-- GameSession::add_player: fails without mutation when the player is
already in this roster or when the tank pointer is null; otherwise stores
the roster entry and succeeds. -/
def add_player (s : GameSession) (player_id address_info : String)
    (tank : Option String) (is_udp : Bool) : Bool × GameSession :=
  if (lookupAssoc s.players player_id).isSome then (false, s)
  else
    match tank with
    | none => (false, s)
    | some tid =>
      let pd : PlayerData := ⟨tid, address_info, is_udp⟩
      (true, { s with players := updateAssoc s.players player_id pd })

/-- GameSession::remove_player: fails when the player is absent, otherwise
erases the roster entry. -/
def remove_player (s : GameSession) (player_id : String) :
    Bool × GameSession :=
  if (lookupAssoc s.players player_id).isSome then
    (true, { s with players := eraseAssoc s.players player_id })
  else (false, s)

/-- GameSession::get_tank_for_player: the stored tank of the player, none
(null) when the player is not in the roster; roster tanks are never null. -/
def get_tank_for_player (s : GameSession) (player_id : String) :
    Option String :=
  (lookupAssoc s.players player_id).map PlayerData.tank_id

/-- GameSession::get_players_count. -/
def get_players_count (s : GameSession) : Nat := s.players.length

/-- GameSession::is_empty. -/
def is_empty (s : GameSession) : Bool := s.players.isEmpty

/-- GameSession::has_player. -/
def has_player (s : GameSession) (player_id : String) : Bool :=
  (lookupAssoc s.players player_id).isSome

end GameSession

/-- SessionManager state (session_manager.h): the registered sessions, the
reverse player index, the running numeric id, the owned TankPool and the
session telemetry trace. -/
structure SessionManager where
  sessions : List (String × GameSession)
  player_to_session_map : List (String × String)
  next_session_numeric_id : Nat
  pool : TankPool
  events : List Event
deriving DecidableEq

namespace SessionManager

/-- A freshly constructed SessionManager over a given pool. -/
def start (pool : TankPool) : SessionManager :=
  { sessions := [], player_to_session_map := [],
    next_session_numeric_id := 0, pool := pool, events := [] }

/-- The session id string "session_" + counter built by the source. -/
def mkSessionId (n : Nat) : String := "session_" ++ toString n

/-- SessionManager::create_session. -/
def create_session (m : SessionManager) : GameSession × SessionManager :=
  let sid := mkSessionId m.next_session_numeric_id
  let s : GameSession := { session_id := sid, players := [] }
  (s, { m with sessions := updateAssoc m.sessions sid s,
               next_session_numeric_id := m.next_session_numeric_id + 1,
               events := m.events ++ [.sessionCreated sid] })

/-- SessionManager::get_session. -/
def get_session (m : SessionManager) (session_id : String) :
    Option GameSession :=
  lookupAssoc m.sessions session_id

/-- The per-player cleanup loop of SessionManager::remove_session: for each
roster entry of the removed session, erase its player_index entry and
release its tank (get_tank_for_player on the removed session yields exactly
the stored tank). -/
def removeSessionCleanup (m : SessionManager) :
    List (String × PlayerData) → SessionManager
  | [] => m
  | (pid, pd) :: rest =>
      removeSessionCleanup
        { m with
          player_to_session_map := eraseAssoc m.player_to_session_map pid,
          pool := m.pool.release_tank pd.tank_id } rest

/-- SessionManager::remove_session: fails when the session is unknown;
otherwise erases the session, cleans up every remaining roster entry and
emits session_removed. -/
def remove_session (m : SessionManager) (session_id reason : String) :
    Bool × SessionManager :=
  match lookupAssoc m.sessions session_id with
  | none => (false, m)
  | some sess =>
    let m1 := { m with sessions := eraseAssoc m.sessions session_id }
    let m2 := removeSessionCleanup m1 sess.players
    (true,
     { m2 with events := m2.events ++ [.sessionRemoved session_id reason] })

/-- The part of SessionManager::add_player_to_session that runs after the
already-in-another-session check: resolve the session, delegate to
GameSession::add_player, update the player index on success; on failure
return the session when the player was already in it, else null. -/
def addPlayerCore (m : SessionManager)
    (session_id player_id address_info tank_id : String) (is_udp : Bool) :
    Option GameSession × SessionManager :=
  match lookupAssoc m.sessions session_id with
  | none => (none, m)
  | some sess =>
    let r := sess.add_player player_id address_info (some tank_id) is_udp
    if r.1 then
      (some r.2,
       { m with sessions := updateAssoc m.sessions session_id r.2,
                player_to_session_map :=
                  updateAssoc m.player_to_session_map player_id session_id,
                events := m.events ++
                  [.playerJoinedSession player_id session_id tank_id] })
    else if sess.has_player player_id then (some sess, m)
    else (none, m)

/-- SessionManager::add_player_to_session: rejects a null tank; when the
player is already mapped to a different session, returns that session
without mutating; otherwise proceeds with the core path. -/
def add_player_to_session (m : SessionManager)
    (session_id player_id address_info : String) (tank : Option String)
    (is_udp : Bool) : Option GameSession × SessionManager :=
  match tank with
  | none => (none, m)
  | some tank_id =>
    match lookupAssoc m.player_to_session_map player_id with
    | some existing =>
      if existing ≠ session_id then (lookupAssoc m.sessions existing, m)
      else addPlayerCore m session_id player_id address_info tank_id is_udp
    | none => addPlayerCore m session_id player_id address_info tank_id is_udp

/-- SessionManager::remove_player_from_any_session: fails when the player
is unmapped; purges a stale index entry mapping to a vanished session;
otherwise removes the player from the session, erases the index entry,
releases the tank, emits player_left_session, and removes the session when
its roster became empty. -/
def remove_player_from_any_session (m : SessionManager) (player_id : String) :
    Bool × SessionManager :=
  match lookupAssoc m.player_to_session_map player_id with
  | none => (false, m)
  | some sid =>
    match lookupAssoc m.sessions sid with
    | none =>
      (false, { m with player_to_session_map :=
                  eraseAssoc m.player_to_session_map player_id })
    | some sess =>
      let tank := sess.get_tank_for_player player_id
      let r := sess.remove_player player_id
      if r.1 then
        let m1 := { m with
          sessions := updateAssoc m.sessions sid r.2,
          player_to_session_map :=
            eraseAssoc m.player_to_session_map player_id }
        let m2 :=
          match tank with
          | some tid => { m1 with pool := m1.pool.release_tank tid }
          | none => m1
        let m3 :=
          { m2 with events := m2.events ++ [.playerLeftSession player_id sid] }
        if r.2.is_empty then
          (true, (m3.remove_session sid "became_empty_after_player_left").2)
        else (true, m3)
      else (false, m)

/-- SessionManager::get_session_by_player_id. -/
def get_session_by_player_id (m : SessionManager) (player_id : String) :
    Option GameSession :=
  match lookupAssoc m.player_to_session_map player_id with
  | some sid => lookupAssoc m.sessions sid
  | none => none

/-- The session scan of find_or_create_session_for_player: walk the
registered sessions in registry order, and join the first one whose roster
size is below the cap and whose add_player succeeds; returns the chosen id,
the updated session and the updated registry list. The source iterates the
std::map sessions_ in key order; the model keeps the registry as a list in
registration order, which coincides with key order for the generated ids
session_0 .. session_9. -/
def scanSessions (player_id address_info tank_id : String) (is_udp : Bool)
    (maxp : Nat) :
    List (String × GameSession) →
      Option (String × GameSession × List (String × GameSession))
  | [] => none
  | (sid, sess) :: rest =>
    if sess.get_players_count < maxp then
      let r := sess.add_player player_id address_info (some tank_id) is_udp
      if r.1 then some (sid, r.2, (sid, r.2) :: rest)
      else
        match scanSessions player_id address_info tank_id is_udp maxp rest with
        | some (s2, g2, rest2) => some (s2, g2, (sid, sess) :: rest2)
        | none => none
    else
      match scanSessions player_id address_info tank_id is_udp maxp rest with
      | some (s2, g2, rest2) => some (s2, g2, (sid, sess) :: rest2)
      | none => none

/-- SessionManager::find_or_create_session_for_player: rejects a null tank;
returns the existing session of an already-mapped player; otherwise scans
for the first session with space, and when none qualifies creates a brand
new session for the player (rolled back if even that add fails). -/
def find_or_create_session_for_player (m : SessionManager)
    (player_id address_info : String) (tank : Option String) (is_udp : Bool)
    (max_players_per_session : Nat) : Option GameSession × SessionManager :=
  match tank with
  | none => (none, m)
  | some tank_id =>
    match lookupAssoc m.player_to_session_map player_id with
    | some existing => (lookupAssoc m.sessions existing, m)
    | none =>
      match scanSessions player_id address_info tank_id is_udp
              max_players_per_session m.sessions with
      | some (sid, sess2, sessions2) =>
        (some sess2,
         { m with sessions := sessions2,
                  player_to_session_map :=
                    updateAssoc m.player_to_session_map player_id sid,
                  events := m.events ++
                    [.playerJoinedSession player_id sid tank_id] })
      | none =>
        let sid := mkSessionId m.next_session_numeric_id
        let s0 : GameSession := { session_id := sid, players := [] }
        let m1 := { m with sessions := updateAssoc m.sessions sid s0,
                           next_session_numeric_id :=
                             m.next_session_numeric_id + 1 }
        let r := s0.add_player player_id address_info (some tank_id) is_udp
        if r.1 then
          (some r.2,
           { m1 with sessions := updateAssoc m1.sessions sid r.2,
                     player_to_session_map :=
                       updateAssoc m1.player_to_session_map player_id sid,
                     events := m1.events ++
                       [.sessionCreated sid,
                        .playerJoinedSession player_id sid tank_id] })
        else
          (none, { m1 with sessions := eraseAssoc m1.sessions sid })

end SessionManager

/-- A call against the SessionManager public mutating interface (the five
operations named by the registry invariant). -/
inductive SMOp where
  | createSession : SMOp
  | addPlayer : String → String → String → Option String → Bool → SMOp
  | removePlayer : String → SMOp
  | removeSession : String → String → SMOp
  | findOrCreate : String → String → Option String → Bool → Nat → SMOp

/-- One SessionManager call (returned values are dropped). -/
def SessionManager.step (m : SessionManager) : SMOp → SessionManager
  | .createSession => m.create_session.2
  | .addPlayer sid pid addr tank udp =>
      (m.add_player_to_session sid pid addr tank udp).2
  | .removePlayer pid => (m.remove_player_from_any_session pid).2
  | .removeSession sid reason => (m.remove_session sid reason).2
  | .findOrCreate pid addr tank udp maxp =>
      (m.find_or_create_session_for_player pid addr tank udp maxp).2

/-- A sequence of SessionManager calls, applied in order. -/
def SessionManager.runOps (m : SessionManager) (ops : List SMOp) :
    SessionManager :=
  ops.foldl SessionManager.step m

/-- Broker outcome of one consumed delivery. -/
inductive AckResult where
  | ack : AckResult
  | nackNoRequeue : AckResult
deriving DecidableEq

/-- PlayerCommandConsumer::handle_command_logic (command_consumer.cpp):
Except.error models a thrown exception, caught by process_amqp_message and
turned into a nack; Except.ok carries the possibly updated state (the
source returns true on every non-throwing path, so no Bool is needed). The
all_tanks miss branch acks unchanged: it cannot occur in the source, where
the roster holds a live shared_ptr into the pool. -/
def handle_command_logic (m : SessionManager) (msg : Json) :
    Except String SessionManager :=
  if ¬ (msg.hasField "player_id" ∧ msg.hasField "command" ∧
        msg.hasField "details") then
    .error "missing required fields: player_id, command or details"
  else
    match (msg.get "player_id").getStr with
    | .error e => .error e
    | .ok player_id =>
      match (msg.get "command").getStr with
      | .error e => .error e
      | .ok command =>
        let details := msg.get "details"
        match m.get_session_by_player_id player_id with
        | none => .ok m
        | some session =>
          match session.get_tank_for_player player_id with
          | none => .ok m
          | some tank_id =>
            match lookupAssoc m.pool.all_tanks tank_id with
            | none => .ok m
            | some tank =>
              if ¬ tank.is_active ∧ (command = "move" ∨ command = "shoot") then
                .ok m
              else if command = "move" then
                if ¬ details.hasField "new_position" then
                  .error "move command without new_position"
                else
                  let r := tank.move (details.get "new_position")
                  .ok { m with pool :=
                    { m.pool with
                      all_tanks := updateAssoc m.pool.all_tanks tank_id r.1,
                      events := m.pool.events ++ r.2 } }
              else if command = "shoot" then
                let r := tank.shoot
                .ok { m with pool :=
                  { m.pool with
                    all_tanks := updateAssoc m.pool.all_tanks tank_id r.1,
                    events := m.pool.events ++ r.2 } }
              else .ok m

/-- PlayerCommandConsumer::process_amqp_message: none models a body that
json::parse rejects; an exception from handle_command_logic is caught;
success acks the delivery, failure nacks it with requeue = false. -/
def process_amqp_message (m : SessionManager) (body : Option Json) :
    SessionManager × AckResult :=
  match body with
  | none => (m, .nackNoRequeue)
  | some msg =>
    match handle_command_logic m msg with
    | .ok m2 => (m2, .ack)
    | .error _ => (m, .nackNoRequeue)

/-- The position payload {"x": 10, "y": 20} of the scenario message. -/
def newPos1020 : Json := .obj (.ofList [("x", .num 10), ("y", .num 20)])

/-- The scenario message of the spec:
{"player_id":"p1","command":"move","details":{"new_position":{"x":10,"y":20}}}. -/
def moveCommandMsg : Json :=
  .obj (.ofList [("player_id", .str "p1"), ("command", .str "move"),
    ("details", .obj (.ofList [("new_position", newPos1020)]))])

/-- A move message whose new_position is present but not of the form
{x: number, y: number}. -/
def invalidMoveMsg : Json :=
  .obj (.ofList [("player_id", .str "p1"), ("command", .str "move"),
    ("details", .obj (.ofList [("new_position", .str "oops")]))])

/-- A move message without new_position in its details. -/
def noPositionMoveMsg : Json :=
  .obj (.ofList [("player_id", .str "p1"), ("command", .str "move"),
    ("details", .obj .nil)])

/-- Demo world for the consumer scenarios: player p1 registered in
session_0 holding the active in-use tank tank_0. -/
def demoTank : Tank :=
  { tank_id := "tank_0", position := defaultPosition, health := 100,
    is_active := true }

/-- Session of the demo world. -/
def demoSession : GameSession :=
  { session_id := "session_0",
    players := [("p1", { tank_id := "tank_0", address_info := "addr",
                         is_udp_player := true })] }

/-- Pool of the demo world. -/
def demoPool : TankPool :=
  { all_tanks := [("tank_0", demoTank)], available_tank_ids := [],
    in_use_ids := ["tank_0"], events := [] }

/-- Registry of the demo world. -/
def demoManager : SessionManager :=
  { sessions := [("session_0", demoSession)],
    player_to_session_map := [("p1", "session_0")],
    next_session_numeric_id := 1, pool := demoPool, events := [] }

/-! Injectivity of the decimal rendering used by std::to_string-style id
generation ("tank_" ++ i, "session_" ++ i), proved by decoding the digit
string produced by Nat.toDigitsCore. -/

/-- Numeric value of a decimal digit character. -/
def digitVal (c : Char) : Nat := c.toNat - 48

/-- The digit list decoder: most significant digit first. -/
def decodeDigits (l : List Char) : Nat :=
  l.foldl (fun acc c => acc * 10 + digitVal c) 0

theorem digitVal_digitChar {d : Nat} (h : d < 10) :
    digitVal (Nat.digitChar d) = d := by
  interval_cases d <;> rfl

theorem toDigitsCore_shift (b : Nat) :
    ∀ (f n : Nat) (l : List Char),
      Nat.toDigitsCore b f n l = Nat.toDigitsCore b f n [] ++ l := by
  intro f
  induction f with
  | zero => intro n l; rfl
  | succ f ih =>
    intro n l
    simp only [Nat.toDigitsCore]
    by_cases h : n / b = 0
    · simp [h]
    · simp only [h, if_false]
      rw [ih (n / b) (Nat.digitChar (n % b) :: l),
          ih (n / b) [Nat.digitChar (n % b)]]
      simp

theorem decode_toDigitsCore :
    ∀ (f n : Nat), n < f → decodeDigits (Nat.toDigitsCore 10 f n []) = n := by
  intro f
  induction f with
  | zero => intro n h; omega
  | succ f ih =>
    intro n h
    simp only [Nat.toDigitsCore]
    by_cases hdiv : n / 10 = 0
    · have hlt : n < 10 := by omega
      have hmod : n % 10 = n := Nat.mod_eq_of_lt hlt
      simp [hdiv, decodeDigits, hmod, digitVal_digitChar hlt]
    · simp only [hdiv, if_false]
      rw [toDigitsCore_shift]
      have hpos : 0 < n := by
        rcases Nat.eq_zero_or_pos n with h0 | h0
        · exact absurd (by simp [h0]) hdiv
        · exact h0
      have hstep : n / 10 < f := by
        have := Nat.div_lt_self hpos (by norm_num : (1:Nat) < 10)
        omega
      have hmod : n % 10 < 10 := Nat.mod_lt _ (by norm_num)
      simp only [decodeDigits, List.foldl_append]
      have ihv := ih (n / 10) hstep
      simp only [decodeDigits] at ihv
      rw [ihv]
      simp [digitVal_digitChar hmod]
      omega

theorem natRepr_injective : Function.Injective Nat.repr := by
  intro m n h
  have hdata : Nat.toDigits 10 m = Nat.toDigits 10 n := by
    have h2 := congrArg String.toList h
    simpa [Nat.repr, List.toList_asString] using h2
  have hm := decode_toDigitsCore (m + 1) m (by omega)
  have hn := decode_toDigitsCore (n + 1) n (by omega)
  simp only [Nat.toDigits] at hdata
  calc m = decodeDigits (Nat.toDigitsCore 10 (m + 1) m []) := hm.symm
    _ = decodeDigits (Nat.toDigitsCore 10 (n + 1) n []) := by rw [hdata]
    _ = n := hn

theorem natToString_injective {m n : Nat} (h : toString m = toString n) :
    m = n :=
  natRepr_injective h

theorem string_append_left_cancel {s a b : String} (h : s ++ a = s ++ b) :
    a = b := by
  have hd : a.data = b.data := by
    have hap : (s ++ a).data = s.data ++ a.data := rfl
    have hbp : (s ++ b).data = s.data ++ b.data := rfl
    have h2 := congrArg String.data h
    rw [hap, hbp] at h2
    exact List.append_cancel_left h2
  cases a
  cases b
  exact congrArg String.mk (by simpa using hd)

theorem appendNat_injective (pre : String) :
    Function.Injective (fun n : Nat => pre ++ toString n) := by
  intro m n h
  exact natToString_injective (string_append_left_cancel h)

/-! Association list lemmas shared by the TankPool and SessionManager
invariant proofs. -/

/-- Key list of an association list. -/
def keysOf {α : Type} (l : List (String × α)) : List String :=
  l.map Prod.fst

@[simp] theorem keysOf_nil {α : Type} : keysOf ([] : List (String × α)) = [] := rfl

@[simp] theorem keysOf_cons {α : Type} (k : String) (v : α) (tl : List (String × α)) :
    keysOf ((k, v) :: tl) = k :: keysOf tl := rfl

theorem lookupAssoc_update_self {α : Type} (l : List (String × α)) (k : String) (v : α) :
    lookupAssoc (updateAssoc l k v) k = some v := by
  induction l with
  | nil => simp [lookupAssoc, updateAssoc]
  | cons hd tl ih =>
    obtain ⟨k', v'⟩ := hd
    by_cases h : k' = k <;> simp [lookupAssoc, updateAssoc, h, ih]

theorem lookupAssoc_update_ne {α : Type} (l : List (String × α)) {k k' : String}
    (v : α) (h : k' ≠ k) :
    lookupAssoc (updateAssoc l k v) k' = lookupAssoc l k' := by
  induction l with
  | nil => simp [lookupAssoc, updateAssoc, Ne.symm h]
  | cons hd tl ih =>
    obtain ⟨k0, v0⟩ := hd
    by_cases h0 : k0 = k <;>
      simp [lookupAssoc, updateAssoc, h0, Ne.symm h, ih]

theorem lookupAssoc_erase_ne {α : Type} (l : List (String × α)) {k k' : String}
    (h : k' ≠ k) :
    lookupAssoc (eraseAssoc l k) k' = lookupAssoc l k' := by
  induction l with
  | nil => simp [lookupAssoc, eraseAssoc]
  | cons hd tl ih =>
    obtain ⟨k0, v0⟩ := hd
    by_cases h0 : k0 = k
    · subst h0
      simp [lookupAssoc, eraseAssoc, Ne.symm h]
    · simp [lookupAssoc, eraseAssoc, h0, ih]

theorem mem_keysOf_of_lookupAssoc {α : Type} {l : List (String × α)} {k : String}
    {v : α} (h : lookupAssoc l k = some v) : k ∈ keysOf l := by
  induction l with
  | nil => simp [lookupAssoc] at h
  | cons hd tl ih =>
    obtain ⟨k0, v0⟩ := hd
    by_cases h0 : k0 = k
    · simp [h0]
    · simp only [lookupAssoc, h0, if_false] at h
      simp only [keysOf_cons, List.mem_cons]
      exact Or.inr (ih h)

theorem lookupAssoc_eq_none_of_not_mem {α : Type} {l : List (String × α)}
    {k : String} (h : k ∉ keysOf l) : lookupAssoc l k = none := by
  induction l with
  | nil => rfl
  | cons hd tl ih =>
    obtain ⟨k0, v0⟩ := hd
    simp only [keysOf_cons, List.mem_cons, not_or] at h
    have hne : ¬ (k0 = k) := fun hh => h.1 hh.symm
    simp [lookupAssoc, hne, ih h.2]

theorem lookupAssoc_erase_self {α : Type} {l : List (String × α)} {k : String}
    (h : (keysOf l).Nodup) : lookupAssoc (eraseAssoc l k) k = none := by
  induction l with
  | nil => rfl
  | cons hd tl ih =>
    obtain ⟨k0, v0⟩ := hd
    simp only [keysOf_cons, List.nodup_cons] at h
    by_cases h0 : k0 = k
    · subst h0
      simp only [eraseAssoc, if_pos rfl]
      exact lookupAssoc_eq_none_of_not_mem h.1
    · simp [eraseAssoc, lookupAssoc, h0, ih h.2]

theorem keysOf_updateAssoc_mem {α : Type} {l : List (String × α)} {k : String}
    (v : α) (h : k ∈ keysOf l) : keysOf (updateAssoc l k v) = keysOf l := by
  induction l with
  | nil => simp at h
  | cons hd tl ih =>
    obtain ⟨k0, v0⟩ := hd
    by_cases h0 : k0 = k
    · simp [updateAssoc, h0]
    · simp only [keysOf_cons, List.mem_cons] at h
      rcases h with h | h
      · exact absurd h.symm h0
      · simp [updateAssoc, h0, ih h]

theorem keysOf_updateAssoc_not_mem {α : Type} {l : List (String × α)} {k : String}
    (v : α) (h : k ∉ keysOf l) : keysOf (updateAssoc l k v) = keysOf l ++ [k] := by
  induction l with
  | nil => simp [updateAssoc]
  | cons hd tl ih =>
    obtain ⟨k0, v0⟩ := hd
    simp only [keysOf_cons, List.mem_cons, not_or] at h
    have hne : ¬ (k0 = k) := fun hh => h.1 hh.symm
    simp [updateAssoc, hne, ih h.2]

theorem nodup_keysOf_updateAssoc {α : Type} {l : List (String × α)} {k : String}
    (v : α) (h : (keysOf l).Nodup) : (keysOf (updateAssoc l k v)).Nodup := by
  by_cases hm : k ∈ keysOf l
  · rw [keysOf_updateAssoc_mem v hm]; exact h
  · rw [keysOf_updateAssoc_not_mem v hm]
    simp [List.nodup_append, h, hm]

theorem keysOf_eraseAssoc_subset {α : Type} {l : List (String × α)} {k k' : String}
    (h : k' ∈ keysOf (eraseAssoc l k)) : k' ∈ keysOf l := by
  induction l with
  | nil => simp [eraseAssoc] at h
  | cons hd tl ih =>
    obtain ⟨k0, v0⟩ := hd
    by_cases h0 : k0 = k
    · simp only [eraseAssoc, if_pos h0] at h
      simp only [keysOf_cons, List.mem_cons]
      exact Or.inr h
    · simp only [eraseAssoc, if_neg h0, keysOf_cons, List.mem_cons] at h
      simp only [keysOf_cons, List.mem_cons]
      rcases h with h | h
      · exact Or.inl h
      · exact Or.inr (ih h)

theorem nodup_keysOf_eraseAssoc {α : Type} {l : List (String × α)} {k : String}
    (h : (keysOf l).Nodup) : (keysOf (eraseAssoc l k)).Nodup := by
  induction l with
  | nil => simp [eraseAssoc]
  | cons hd tl ih =>
    obtain ⟨k0, v0⟩ := hd
    simp only [keysOf_cons, List.nodup_cons] at h
    by_cases h0 : k0 = k
    · simpa [eraseAssoc, h0] using h.2
    · simp only [eraseAssoc, if_neg h0, keysOf_cons, List.nodup_cons]
      exact ⟨fun hmem => h.1 (keysOf_eraseAssoc_subset hmem), ih h.2⟩

theorem updateAssoc_lookup_self {α : Type} {l : List (String × α)} {k : String}
    {v : α} (h : lookupAssoc l k = some v) : updateAssoc l k v = l := by
  induction l with
  | nil => simp [lookupAssoc] at h
  | cons hd tl ih =>
    obtain ⟨k0, v0⟩ := hd
    by_cases h0 : k0 = k
    · subst h0
      simp [lookupAssoc] at h
      simp [updateAssoc, h]
    · simp only [lookupAssoc, h0, if_false] at h
      simp [updateAssoc, h0, ih h]

theorem lookupAssoc_map_create {α : Type} (f : String → α) :
    ∀ (ids : List String) (k : String) (t : α),
      lookupAssoc (ids.map (fun id => (id, f id))) k = some t → t = f k := by
  intro ids
  induction ids with
  | nil => intro k t h; simp [lookupAssoc] at h
  | cons hd tl ih =>
    intro k t h
    by_cases h0 : hd = k
    · subst h0
      simp [lookupAssoc] at h
      exact h.symm
    · simp only [List.map_cons, lookupAssoc, h0, if_false] at h
      exact ih k t h

/-! TankPool invariants. -/

/-- The fields of a tank right after Tank::reset, independent of its
previous state. -/
theorem Tank.reset_fst (t : Tank) :
    (t.reset).1 = { tank_id := t.tank_id, position := defaultPosition,
                    health := defaultHealth, is_active := false } := by
  cases hb : t.is_active <;> simp [Tank.reset, Tank.set_active, hb]

/-- Every tank whose id sits on the available list is inactive with default
position and health. -/
def PristineAvailable (p : TankPool) : Prop :=
  ∀ id ∈ p.available_tank_ids, ∀ t, lookupAssoc p.all_tanks id = some t →
    t.is_active = false ∧ t.position = defaultPosition ∧ t.health = defaultHealth

/-- Inductive invariant of the pool: distinct available ids, distinct
in-use ids, the two sets disjoint, their sizes summing to the capacity, and
available tanks pristine. -/
def PoolInv (p : TankPool) (n : Nat) : Prop :=
  p.available_tank_ids.Nodup ∧ p.in_use_ids.Nodup ∧
  (∀ id ∈ p.available_tank_ids, id ∉ p.in_use_ids) ∧
  p.available_tank_ids.length + p.in_use_ids.length = n ∧
  PristineAvailable p

theorem poolInv_create (n : Nat) : PoolInv (TankPool.create n) n := by
  refine ⟨?_, by simp [TankPool.create], by simp [TankPool.create], ?_, ?_⟩
  · simp only [TankPool.create]
    exact (List.nodup_range n).map (appendNat_injective "tank_")
  · simp [TankPool.create]
  · intro id hmem t hl
    simp only [TankPool.create] at hl
    have := lookupAssoc_map_create Tank.create _ id t hl
    subst this
    exact ⟨rfl, rfl, rfl⟩

theorem poolInv_acquire {p : TankPool} {n : Nat} (h : PoolInv p n) :
    PoolInv p.acquire_tank.2 n := by
  obtain ⟨hav, hiu, hdisj, hlen, hpr⟩ := h
  cases hlast : p.available_tank_ids.getLast? with
  | none =>
    simp only [TankPool.acquire_tank, hlast]
    exact ⟨hav, hiu, hdisj, hlen, hpr⟩
  | some id =>
    obtain ⟨l0, hl0⟩ := List.getLast?_eq_some_iff.mp hlast
    have hdrop : p.available_tank_ids.dropLast = l0 := by
      rw [hl0]; exact List.dropLast_concat
    have hmem_id : id ∈ p.available_tank_ids := by simp [hl0]
    have hsplit : l0.Nodup ∧ id ∉ l0 := by
      have hna := hl0 ▸ hav
      rw [List.nodup_append] at hna
      exact ⟨hna.1, fun hm => hna.2.2 hm (by simp)⟩
    cases hlook : lookupAssoc p.all_tanks id with
    | none =>
      simp only [TankPool.acquire_tank, hlast, hlook, hdrop]
      refine ⟨?_, hiu, ?_, ?_, ?_⟩
      · exact hl0 ▸ hav
      · intro x hx
        exact hdisj x (hl0 ▸ hx)
      · have : (l0 ++ [id]).length = p.available_tank_ids.length := by rw [hl0]
        simpa [this] using hlen
      · intro x hx t hl
        exact hpr x (hl0 ▸ hx) t hl
    | some tank =>
      have hnotin : id ∉ p.in_use_ids := hdisj id hmem_id
      have hcont : p.in_use_ids.contains id = false := by
        simp [List.contains, hnotin]
      simp only [TankPool.acquire_tank, hlast, hlook, hdrop, hcont,
        Bool.false_eq_true, if_false]
      refine ⟨hsplit.1, ?_, ?_, ?_, ?_⟩
      · simp [List.nodup_append, hiu, hnotin]
      · intro x hx
        have hxav : x ∈ p.available_tank_ids := by simp [hl0, hx]
        simp only [List.mem_append, List.mem_singleton]
        rintro (hx2 | rfl)
        · exact hdisj x hxav hx2
        · exact hsplit.2 hx
      · have hlav : p.available_tank_ids.length = l0.length + 1 := by simp [hl0]
        simp only [List.length_append, List.length_singleton]
        omega
      · intro x hx t hl
        have hxne : x ≠ id := fun hh => hsplit.2 (hh ▸ hx)
        rw [lookupAssoc_update_ne _ _ hxne] at hl
        exact hpr x (by simp [hl0, hx]) t hl

theorem poolInv_release {p : TankPool} {n : Nat} (h : PoolInv p n)
    (id : String) : PoolInv (p.release_tank id) n := by
  obtain ⟨hav, hiu, hdisj, hlen, hpr⟩ := h
  by_cases hin : id ∈ p.in_use_ids
  · have hcont : p.in_use_ids.contains id = true := by
      simp [List.contains, hin]
    have hnav : id ∉ p.available_tank_ids := fun hm => hdisj id hm hin
    have hcav : p.available_tank_ids.contains id = false := by
      simp [List.contains, hnav]
    simp only [TankPool.release_tank, hcont, Bool.not_true, Bool.false_eq_true,
      if_false, hcav]
    refine ⟨?_, ?_, ?_, ?_, ?_⟩
    · simp [List.nodup_append, hav, hnav]
    · exact hiu.erase id
    · intro x hx
      simp only [List.mem_append, List.mem_singleton] at hx
      rcases hx with hx | rfl
      · intro hmem
        exact hdisj x hx (List.mem_of_mem_erase hmem)
      · exact hiu.not_mem_erase
    · have hle : (p.in_use_ids.erase id).length = p.in_use_ids.length - 1 :=
        List.length_erase_of_mem hin
      have hpos : 0 < p.in_use_ids.length := List.length_pos_of_mem hin
      simp only [List.length_append, List.length_singleton, hle]
      omega
    · intro x hx t hl
      simp only [List.mem_append, List.mem_singleton] at hx
      cases hlook : lookupAssoc p.all_tanks id with
      | none =>
        simp only [hlook] at hl
        rcases hx with hx | rfl
        · exact hpr x hx t hl
        · rw [hlook] at hl; cases hl
      | some tank =>
        simp only [hlook] at hl
        rcases hx with hx | rfl
        · have hxne : x ≠ id := fun hh => hnav (hh ▸ hx)
          rw [lookupAssoc_update_ne _ _ hxne] at hl
          exact hpr x hx t hl
        · rw [lookupAssoc_update_self] at hl
          have ht : t = (tank.reset).1 := by injection hl.symm
          rw [ht, Tank.reset_fst]
          exact ⟨rfl, rfl, rfl⟩
  · have hcont : p.in_use_ids.contains id = false := by
      simp [List.contains, hin]
    simp only [TankPool.release_tank, hcont, Bool.not_false, if_true]
    exact ⟨hav, hiu, hdisj, hlen, hpr⟩

theorem poolInv_step {p : TankPool} {n : Nat} (h : PoolInv p n) (op : PoolOp) :
    PoolInv (p.step op) n := by
  cases op with
  | acquire => exact poolInv_acquire h
  | release id => exact poolInv_release h id

theorem poolInv_run {p : TankPool} {n : Nat} (h : PoolInv p n) :
    ∀ ops : List PoolOp, PoolInv (p.run ops) n := by
  intro ops
  induction ops generalizing p with
  | nil => exact h
  | cons op rest ih => exact ih (poolInv_step h op)

/-- C5: for a TankPool constructed with capacity N, the number of available
tank ids plus the number of in-use tanks equals N immediately after
construction and after every sequence of acquire_tank and release_tank
calls, whatever the release arguments (including ids not in use and
repeated releases). -/
theorem tankPool_capacity_invariant (n : Nat) (ops : List PoolOp) :
    ((TankPool.create n).run ops).available_tank_ids.length +
      ((TankPool.create n).run ops).in_use_ids.length = n :=
  (poolInv_run (poolInv_create n) ops).2.2.2.1

/-- C10: every tank whose id is on the available list of any pool state
reachable from construction by acquire_tank / release_tank calls is
inactive and holds the default position and default health 100. -/
theorem tankPool_available_pristine (n : Nat) (ops : List PoolOp)
    (id : String) (t : Tank)
    (hmem : id ∈ ((TankPool.create n).run ops).available_tank_ids)
    (hlook : lookupAssoc ((TankPool.create n).run ops).all_tanks id = some t) :
    t.is_active = false ∧ t.position = defaultPosition ∧
      t.health = defaultHealth :=
  (poolInv_run (poolInv_create n) ops).2.2.2.2 id hmem t hlook

/-- Witness for C10 at a concrete pool of capacity 1 after the sequence
[acquire, release tank_0]. -/
theorem tankPool_available_pristine_witness :
    "tank_0" ∈
      ((TankPool.create 1).run [.acquire, .release "tank_0"]).available_tank_ids ∧
    lookupAssoc ((TankPool.create 1).run [.acquire, .release "tank_0"]).all_tanks
      "tank_0" = some (Tank.create "tank_0") ∧
    ((Tank.create "tank_0").is_active = false ∧
     (Tank.create "tank_0").position = defaultPosition ∧
     (Tank.create "tank_0").health = defaultHealth) :=
  ⟨by decide, by decide,
   tankPool_available_pristine 1 [.acquire, .release "tank_0"] "tank_0"
     (Tank.create "tank_0") (by decide) (by decide)⟩

/-- C9 counterexample: a second positive-damage call on a tank whose health
is already 0 (reached through take_damage itself) emits tank_destroyed
again, so the event is not restricted to the first transition to 0. -/
theorem tank_destroyed_reemitted_counterexample :
    ((Tank.create "tank_0").take_damage 100).1.health = 0 ∧
    (((Tank.create "tank_0").take_damage 100).1.take_damage 5).2 =
      [.tankTookDamage "tank_0" 5 0 true,
       .tankDestroyed "tank_0" defaultPosition] :=
  ⟨by decide, by decide⟩

/-- C9 (amended): for positive damage, Tank::take_damage clamps health at
the lower bound 0, never changes the active flag (or the id), emits
tank_took_damage, and emits tank_destroyed exactly when the resulting
health is 0 — on every such call, not only on the first transition from
positive health to 0. -/
theorem tank_take_damage_behavior (t : Tank) (damage : Int)
    (hpos : 0 < damage) :
    (t.take_damage damage).1.health =
      (if t.health - damage ≤ 0 then 0 else t.health - damage) ∧
    0 ≤ (t.take_damage damage).1.health ∧
    (t.take_damage damage).1.is_active = t.is_active ∧
    (t.take_damage damage).1.tank_id = t.tank_id ∧
    (t.take_damage damage).2 =
      (if t.health - damage ≤ 0 then
        [.tankTookDamage t.tank_id damage 0 true,
         .tankDestroyed t.tank_id t.position]
      else
        [.tankTookDamage t.tank_id damage (t.health - damage) false]) := by
  have hd : ¬ damage ≤ 0 := not_le.mpr hpos
  by_cases hh : t.health - damage ≤ 0
  · simp [Tank.take_damage, hd, hh]
  · simp [Tank.take_damage, hd, hh]
    omega

/-- Witness for C9 at damage 5 on a fresh tank. -/
theorem tank_take_damage_behavior_witness :
    (0 : Int) < 5 ∧
    (((Tank.create "tank_0").take_damage 5).1.health =
        (if (Tank.create "tank_0").health - 5 ≤ 0 then 0
         else (Tank.create "tank_0").health - 5) ∧
      0 ≤ ((Tank.create "tank_0").take_damage 5).1.health ∧
      ((Tank.create "tank_0").take_damage 5).1.is_active =
        (Tank.create "tank_0").is_active ∧
      ((Tank.create "tank_0").take_damage 5).1.tank_id =
        (Tank.create "tank_0").tank_id ∧
      ((Tank.create "tank_0").take_damage 5).2 =
        (if (Tank.create "tank_0").health - 5 ≤ 0 then
          [.tankTookDamage (Tank.create "tank_0").tank_id 5 0 true,
           .tankDestroyed (Tank.create "tank_0").tank_id
             (Tank.create "tank_0").position]
        else
          [.tankTookDamage (Tank.create "tank_0").tank_id 5
             ((Tank.create "tank_0").health - 5) false])) :=
  ⟨by decide, tank_take_damage_behavior (Tank.create "tank_0") 5 (by decide)⟩

/-- C4: when the consumer processes the scenario message
{"player_id":"p1","command":"move","details":{"new_position":{"x":10,"y":20}}}
and p1 is registered in a session holding an active tank, that tank's
position becomes {x:10,y:20}, the message is acked, and the tank's id,
health and active flag are unchanged (only the position field and the
telemetry trace change). -/
theorem consumer_move_command_applies (m : SessionManager) (sid : String)
    (sess : GameSession) (tid : String) (t : Tank)
    (hpm : lookupAssoc m.player_to_session_map "p1" = some sid)
    (hs : lookupAssoc m.sessions sid = some sess)
    (hroster : sess.get_tank_for_player "p1" = some tid)
    (ht : lookupAssoc m.pool.all_tanks tid = some t)
    (hactive : t.is_active = true) :
    process_amqp_message m (some moveCommandMsg) =
      ({ m with pool :=
          { m.pool with
            all_tanks := updateAssoc m.pool.all_tanks tid
              { t with position := newPos1020 },
            events := m.pool.events ++ [.tankMoved t.tank_id newPos1020] } },
       .ack) ∧
    ({ t with position := newPos1020 }).tank_id = t.tank_id ∧
    ({ t with position := newPos1020 }).health = t.health ∧
    ({ t with position := newPos1020 }).is_active = t.is_active := by
  refine ⟨?_, rfl, rfl, rfl⟩
  have hf1 : moveCommandMsg.hasField "player_id" = true := rfl
  have hf2 : moveCommandMsg.hasField "command" = true := rfl
  have hf3 : moveCommandMsg.hasField "details" = true := rfl
  have hg1 : (moveCommandMsg.get "player_id").getStr = .ok "p1" := rfl
  have hg2 : (moveCommandMsg.get "command").getStr = .ok "move" := rfl
  have hd1 : (moveCommandMsg.get "details").hasField "new_position" = true := rfl
  have hd2 : (moveCommandMsg.get "details").get "new_position" = newPos1020 := rfl
  have hvp : Tank.validPosition newPos1020 = true := rfl
  simp only [process_amqp_message, handle_command_logic, hf1, hf2, hf3, hg1,
    hg2, hd1, hd2, SessionManager.get_session_by_player_id, hpm, hs, hroster,
    ht, hactive, Tank.move, hvp, not_true, false_and, if_false, if_true,
    Bool.not_true, Bool.false_eq_true, reduceIte]
  simp

/-- Witness for C4 in the demo world. -/
theorem consumer_move_command_applies_witness :
    process_amqp_message demoManager (some moveCommandMsg) =
      ({ demoManager with pool :=
          { demoPool with
            all_tanks := updateAssoc demoPool.all_tanks "tank_0"
              { demoTank with position := newPos1020 },
            events := demoPool.events ++
              [.tankMoved demoTank.tank_id newPos1020] } },
       .ack) ∧
    ({ demoTank with position := newPos1020 }).tank_id = demoTank.tank_id ∧
    ({ demoTank with position := newPos1020 }).health = demoTank.health ∧
    ({ demoTank with position := newPos1020 }).is_active =
      demoTank.is_active :=
  consumer_move_command_applies demoManager "session_0" demoSession "tank_0"
    demoTank (by decide) (by decide) (by decide) (by decide) (by decide)

/-- C2 counterexample: in the demo world, a move command whose
details.new_position is present but not of the form {x:number, y:number}
is acked by the consumer (not nacked as the claim states); the state is
also left unchanged. -/
theorem consumer_invalid_position_acked_counterexample :
    (process_amqp_message demoManager (some invalidMoveMsg)).2 =
      AckResult.ack ∧
    (process_amqp_message demoManager (some invalidMoveMsg)).1 =
      demoManager :=
  ⟨by decide, by decide⟩

/-- C2 (amended): an unparseable body and a message missing any of
player_id / command / details are nacked without requeue with no state
change; a move that reaches a registered active tank but whose details
lack new_position is likewise nacked without requeue with no state change;
but a move whose new_position is present and not of the form
{x:number, y:number} is acked with no state change (Tank::move silently
ignores the invalid position and the handler reports success); in every
case no tank state is mutated and nothing is retried. -/
theorem consumer_malformed_input_behavior (m : SessionManager) (msg : Json)
    (p sid : String) (sess : GameSession) (tid : String) (t : Tank)
    (hf : msg.hasField "player_id" = true ∧ msg.hasField "command" = true ∧
          msg.hasField "details" = true)
    (hgp : msg.get "player_id" = .str p)
    (hgc : msg.get "command" = .str "move")
    (hpm : lookupAssoc m.player_to_session_map p = some sid)
    (hs : lookupAssoc m.sessions sid = some sess)
    (hroster : sess.get_tank_for_player p = some tid)
    (ht : lookupAssoc m.pool.all_tanks tid = some t)
    (hactive : t.is_active = true) :
    (process_amqp_message m none = (m, .nackNoRequeue)) ∧
    (∀ msg2 : Json,
      ¬ (msg2.hasField "player_id" = true ∧ msg2.hasField "command" = true ∧
         msg2.hasField "details" = true) →
      process_amqp_message m (some msg2) = (m, .nackNoRequeue)) ∧
    ((msg.get "details").hasField "new_position" = false →
      process_amqp_message m (some msg) = (m, .nackNoRequeue)) ∧
    (∀ np : Json, (msg.get "details").hasField "new_position" = true →
      (msg.get "details").get "new_position" = np →
      Tank.validPosition np = false →
      process_amqp_message m (some msg) = (m, .ack)) := by
  obtain ⟨hf1, hf2, hf3⟩ := hf
  refine ⟨rfl, ?_, ?_, ?_⟩
  · intro msg2 h2
    simp only [process_amqp_message, handle_command_logic, if_pos h2]
  · intro h3
    simp only [process_amqp_message, handle_command_logic, hf1, hf2, hf3,
      hgp, hgc, Json.getStr, SessionManager.get_session_by_player_id, hpm,
      hs, hroster, ht, hactive, h3, not_true, false_and, Bool.false_eq_true,
      if_false, if_true, reduceIte, not_false_iff, and_true, and_false]
  · intro np hd hnp hv
    simp only [process_amqp_message, handle_command_logic, hf1, hf2, hf3,
      hgp, hgc, Json.getStr, SessionManager.get_session_by_player_id, hpm,
      hs, hroster, ht, hactive, hd, hnp, Tank.move, hv, not_true, false_and,
      Bool.false_eq_true, if_false, if_true, reduceIte, Bool.not_true,
      Bool.not_false, List.append_nil]
    simp [updateAssoc_lookup_self ht]

/-- Witness for C2 in the demo world with the invalid-position message. -/
theorem consumer_malformed_input_behavior_witness :
    (process_amqp_message demoManager none = (demoManager, .nackNoRequeue)) ∧
    (∀ msg2 : Json,
      ¬ (msg2.hasField "player_id" = true ∧ msg2.hasField "command" = true ∧
         msg2.hasField "details" = true) →
      process_amqp_message demoManager (some msg2) =
        (demoManager, .nackNoRequeue)) ∧
    ((invalidMoveMsg.get "details").hasField "new_position" = false →
      process_amqp_message demoManager (some invalidMoveMsg) =
        (demoManager, .nackNoRequeue)) ∧
    (∀ np : Json,
      (invalidMoveMsg.get "details").hasField "new_position" = true →
      (invalidMoveMsg.get "details").get "new_position" = np →
      Tank.validPosition np = false →
      process_amqp_message demoManager (some invalidMoveMsg) =
        (demoManager, .ack)) :=
  consumer_malformed_input_behavior demoManager invalidMoveMsg "p1"
    "session_0" demoSession "tank_0" demoTank
    (by decide) (by decide) (by decide) (by decide) (by decide) (by decide)
    (by decide) (by decide)

/-- C3: a well-formed queued command (player_id, command, details present,
player_id and command strings) whose player has no registered session, or
whose session roster has no tank for the player, or whose resolved tank is
inactive while the command is move or shoot, is acked as a benign no-op
with no state change. -/
theorem consumer_stale_player_acked (m : SessionManager) (msg : Json)
    (p c : String)
    (hf : msg.hasField "player_id" = true ∧ msg.hasField "command" = true ∧
          msg.hasField "details" = true)
    (hgp : msg.get "player_id" = .str p)
    (hgc : msg.get "command" = .str c) :
    (m.get_session_by_player_id p = none →
      process_amqp_message m (some msg) = (m, .ack)) ∧
    (∀ sess : GameSession, m.get_session_by_player_id p = some sess →
      sess.get_tank_for_player p = none →
      process_amqp_message m (some msg) = (m, .ack)) ∧
    (∀ (sess : GameSession) (tid : String) (t : Tank),
      m.get_session_by_player_id p = some sess →
      sess.get_tank_for_player p = some tid →
      lookupAssoc m.pool.all_tanks tid = some t →
      t.is_active = false → (c = "move" ∨ c = "shoot") →
      process_amqp_message m (some msg) = (m, .ack)) := by
  obtain ⟨hf1, hf2, hf3⟩ := hf
  refine ⟨?_, ?_, ?_⟩
  · intro hnone
    simp only [process_amqp_message, handle_command_logic, hf1, hf2, hf3,
      hgp, hgc, Json.getStr, hnone, not_true, false_and, Bool.false_eq_true,
      if_false, reduceIte]
    simp
  · intro sess hsess hnt
    simp only [process_amqp_message, handle_command_logic, hf1, hf2, hf3,
      hgp, hgc, Json.getStr, hsess, hnt, not_true, false_and,
      Bool.false_eq_true, if_false, reduceIte]
    simp
  · intro sess tid t hsess hroster ht hinactive hc
    have hcond : ¬ t.is_active = true ∧ (c = "move" ∨ c = "shoot") :=
      ⟨by simp [hinactive], hc⟩
    simp only [process_amqp_message, handle_command_logic, hf1, hf2, hf3,
      hgp, hgc, Json.getStr, hsess, hroster, ht, not_true, false_and,
      Bool.false_eq_true, if_false, reduceIte, if_pos hcond]
    simp

/-- Witness for C3 on a fresh empty registry. -/
theorem consumer_stale_player_acked_witness :
    ((SessionManager.start (TankPool.create 0)).get_session_by_player_id
        "p1" = none →
      process_amqp_message (SessionManager.start (TankPool.create 0))
        (some moveCommandMsg) =
        (SessionManager.start (TankPool.create 0), .ack)) ∧
    (∀ sess : GameSession,
      (SessionManager.start (TankPool.create 0)).get_session_by_player_id
        "p1" = some sess →
      sess.get_tank_for_player "p1" = none →
      process_amqp_message (SessionManager.start (TankPool.create 0))
        (some moveCommandMsg) =
        (SessionManager.start (TankPool.create 0), .ack)) ∧
    (∀ (sess : GameSession) (tid : String) (t : Tank),
      (SessionManager.start (TankPool.create 0)).get_session_by_player_id
        "p1" = some sess →
      sess.get_tank_for_player "p1" = some tid →
      lookupAssoc (SessionManager.start (TankPool.create 0)).pool.all_tanks
        tid = some t →
      t.is_active = false → ("move" = "move" ∨ "move" = "shoot") →
      process_amqp_message (SessionManager.start (TankPool.create 0))
        (some moveCommandMsg) =
        (SessionManager.start (TankPool.create 0), .ack)) :=
  consumer_stale_player_acked (SessionManager.start (TankPool.create 0))
    moveCommandMsg "p1" "move" (by decide) (by decide) (by decide)

/-- C7: when remove_player_from_any_session removes a player who is the
only remaining member of their session, the call succeeds and afterwards
get_session on that session id returns none: the session is removed the
moment its roster becomes empty. -/
theorem remove_last_player_removes_session (m : SessionManager)
    (pid sid : String) (g : GameSession) (d : PlayerData)
    (hnd : (keysOf m.sessions).Nodup)
    (hpm : lookupAssoc m.player_to_session_map pid = some sid)
    (hs : lookupAssoc m.sessions sid = some g)
    (hroster : g.players = [(pid, d)]) :
    (m.remove_player_from_any_session pid).1 = true ∧
    (m.remove_player_from_any_session pid).2.get_session sid = none := by
  have hlook : lookupAssoc g.players pid = some d := by
    rw [hroster]; simp [lookupAssoc]
  have htank : g.get_tank_for_player pid = some d.tank_id := by
    simp [GameSession.get_tank_for_player, hlook]
  have hrem : g.remove_player pid =
      (true, { g with players := [] }) := by
    simp only [GameSession.remove_player, hlook, Option.isSome_some, if_true]
    rw [hroster]
    simp [eraseAssoc]
  have hempty : GameSession.is_empty { g with players := [] } = true := by
    simp [GameSession.is_empty]
  simp only [SessionManager.remove_player_from_any_session, hpm, hs, htank,
    hrem, hempty, if_true, if_pos rfl]
  refine ⟨by simp, ?_⟩
  simp only [SessionManager.remove_session, SessionManager.get_session,
    lookupAssoc_update_self]
  simp only [SessionManager.removeSessionCleanup]
  exact lookupAssoc_erase_self (nodup_keysOf_updateAssoc _ hnd)

/-- Witness for C7 on a one-session, one-player registry. -/
theorem remove_last_player_removes_session_witness :
    ((keysOf demoManager.sessions).Nodup ∧
     lookupAssoc demoManager.player_to_session_map "p1" = some "session_0" ∧
     lookupAssoc demoManager.sessions "session_0" = some demoSession ∧
     demoSession.players =
       [("p1", { tank_id := "tank_0", address_info := "addr",
                 is_udp_player := true })]) ∧
    (demoManager.remove_player_from_any_session "p1").1 = true ∧
    (demoManager.remove_player_from_any_session "p1").2.get_session
      "session_0" = none :=
  ⟨⟨by decide, by decide, by decide, by decide⟩,
   remove_last_player_removes_session demoManager "p1" "session_0"
     demoSession
     { tank_id := "tank_0", address_info := "addr", is_udp_player := true }
     (by decide) (by decide) (by decide) (by decide)⟩

theorem lookupAssoc_update_some {α : Type} {l : List (String × α)}
    {k s : String} {v g : α}
    (h : lookupAssoc (updateAssoc l k v) s = some g) :
    (s = k ∧ g = v) ∨ (s ≠ k ∧ lookupAssoc l s = some g) := by
  by_cases hs : s = k
  · subst hs
    rw [lookupAssoc_update_self] at h
    exact Or.inl ⟨rfl, (Option.some.injEq _ _ ▸ h).symm⟩
  · exact Or.inr ⟨hs, by rwa [lookupAssoc_update_ne _ _ hs] at h⟩

theorem lookupAssoc_erase_some {α : Type} {l : List (String × α)}
    {k s : String} {v : α} (hnd : (keysOf l).Nodup)
    (h : lookupAssoc (eraseAssoc l k) s = some v) :
    s ≠ k ∧ lookupAssoc l s = some v := by
  by_cases hs : s = k
  · subst hs
    rw [lookupAssoc_erase_self hnd] at h
    cases h
  · exact ⟨hs, by rwa [lookupAssoc_erase_ne _ hs] at h⟩

theorem lookupAssoc_erase_none {α : Type} {l : List (String × α)}
    {k k' : String} (hnd : (keysOf l).Nodup)
    (h : lookupAssoc l k' = none) :
    lookupAssoc (eraseAssoc l k) k' = none := by
  by_cases hs : k' = k
  · subst hs; exact lookupAssoc_erase_self hnd
  · rwa [lookupAssoc_erase_ne _ hs]

theorem isSome_lookupAssoc_iff_mem {α : Type} {l : List (String × α)}
    {k : String} : (lookupAssoc l k).isSome = true ↔ k ∈ keysOf l := by
  induction l with
  | nil => simp [lookupAssoc]
  | cons hd tl ih =>
    obtain ⟨k0, v0⟩ := hd
    by_cases h0 : k0 = k
    · simp [lookupAssoc, h0]
    · simp only [lookupAssoc, h0, if_false, keysOf_cons, List.mem_cons, ih]
      constructor
      · exact fun h => Or.inr h
      · rintro (rfl | h)
        · exact absurd rfl h0
        · exact h

theorem lookupAssoc_of_mem_nodup {α : Type} {l : List (String × α)}
    {e : String × α} (hnd : (keysOf l).Nodup) (he : e ∈ l) :
    lookupAssoc l e.1 = some e.2 := by
  induction l with
  | nil => simp at he
  | cons hd tl ih =>
    obtain ⟨k0, v0⟩ := hd
    simp only [keysOf_cons, List.nodup_cons] at hnd
    rcases List.mem_cons.mp he with rfl | he2
    · simp [lookupAssoc]
    · have hmem : e.1 ∈ keysOf tl := by
        simp only [keysOf, List.mem_map]
        exact ⟨e, he2, rfl⟩
      have hk : e.1 ≠ k0 := fun hh => hnd.1 (hh ▸ hmem)
      simp only [lookupAssoc, if_neg (Ne.symm hk)]
      exact ih hnd.2 he2

/-- Bijection consistency of the session registry (claim C1): every player
index entry points at a registered session whose roster holds the player,
and conversely every roster entry of every registered session is indexed
back to exactly that session. -/
def Consistent (m : SessionManager) : Prop :=
  (∀ p s, lookupAssoc m.player_to_session_map p = some s →
    ∃ g, lookupAssoc m.sessions s = some g ∧
      (lookupAssoc g.players p).isSome = true) ∧
  (∀ s g p, lookupAssoc m.sessions s = some g →
    (lookupAssoc g.players p).isSome = true →
    lookupAssoc m.player_to_session_map p = some s)

/-- Bookkeeping maintained alongside the bijection: unique keys in the
session map, the player index and every roster, and freshness of all
session ids not generated yet. -/
def RegistryWF (m : SessionManager) : Prop :=
  (keysOf m.sessions).Nodup ∧
  (keysOf m.player_to_session_map).Nodup ∧
  (∀ s g, lookupAssoc m.sessions s = some g → (keysOf g.players).Nodup) ∧
  (∀ j, m.next_session_numeric_id ≤ j →
    lookupAssoc m.sessions (SessionManager.mkSessionId j) = none)

/-- Inductive invariant of the registry. -/
def RegistryInv (m : SessionManager) : Prop := RegistryWF m ∧ Consistent m

theorem mkSessionId_injective {a b : Nat}
    (h : SessionManager.mkSessionId a = SessionManager.mkSessionId b) :
    a = b :=
  appendNat_injective "session_" h

theorem registryInv_start (pool : TankPool) :
    RegistryInv (SessionManager.start pool) := by
  refine ⟨⟨by simp [SessionManager.start], by simp [SessionManager.start],
    ?_, ?_⟩, ?_, ?_⟩ <;>
    simp [SessionManager.start, lookupAssoc]

theorem registryInv_create_session {m : SessionManager} (h : RegistryInv m) :
    RegistryInv m.create_session.2 := by
  obtain ⟨⟨hs, hp, hr, hfz⟩, hc1, hc2⟩ := h
  have hfresh : lookupAssoc m.sessions
      (SessionManager.mkSessionId m.next_session_numeric_id) = none :=
    hfz _ (le_refl _)
  simp only [SessionManager.create_session]
  refine ⟨⟨nodup_keysOf_updateAssoc _ hs, hp, ?_, ?_⟩, ?_, ?_⟩
  · intro s g hg
    rcases lookupAssoc_update_some hg with ⟨rfl, rfl⟩ | ⟨hne, hg2⟩
    · simp
    · exact hr s g hg2
  · intro j hj
    dsimp only at hj ⊢
    have hne : SessionManager.mkSessionId j ≠
        SessionManager.mkSessionId m.next_session_numeric_id := by
      intro hh
      have := mkSessionId_injective hh
      omega
    rw [lookupAssoc_update_ne _ _ hne]
    exact hfz j (by omega)
  · intro p s hps
    obtain ⟨g, hg, hpg⟩ := hc1 p s hps
    have hne : s ≠ SessionManager.mkSessionId m.next_session_numeric_id := by
      intro hh
      rw [hh, hfresh] at hg
      cases hg
    exact ⟨g, by rwa [lookupAssoc_update_ne _ _ hne], hpg⟩
  · intro s g p hg hpg
    rcases lookupAssoc_update_some hg with ⟨rfl, rfl⟩ | ⟨hne, hg2⟩
    · simp [lookupAssoc] at hpg
    · exact hc2 s g p hg2 hpg

theorem removeSessionCleanup_sessions :
    ∀ (ps : List (String × PlayerData)) (m : SessionManager),
      (SessionManager.removeSessionCleanup m ps).sessions = m.sessions := by
  intro ps
  induction ps with
  | nil => intro m; rfl
  | cons hd tl ih =>
    intro m
    obtain ⟨pid, pd⟩ := hd
    simp only [SessionManager.removeSessionCleanup]
    rw [ih]

theorem removeSessionCleanup_nid :
    ∀ (ps : List (String × PlayerData)) (m : SessionManager),
      (SessionManager.removeSessionCleanup m ps).next_session_numeric_id =
        m.next_session_numeric_id := by
  intro ps
  induction ps with
  | nil => intro m; rfl
  | cons hd tl ih =>
    intro m
    obtain ⟨pid, pd⟩ := hd
    simp only [SessionManager.removeSessionCleanup]
    rw [ih]

theorem removeSessionCleanup_pm_nodup :
    ∀ (ps : List (String × PlayerData)) (m : SessionManager),
      (keysOf m.player_to_session_map).Nodup →
      (keysOf (SessionManager.removeSessionCleanup
        m ps).player_to_session_map).Nodup := by
  intro ps
  induction ps with
  | nil => intro m h; exact h
  | cons hd tl ih =>
    intro m h
    obtain ⟨pid, pd⟩ := hd
    simp only [SessionManager.removeSessionCleanup]
    exact ih _ (nodup_keysOf_eraseAssoc h)

theorem removeSessionCleanup_pm_lookup :
    ∀ (ps : List (String × PlayerData)) (m : SessionManager) (p : String),
      (keysOf m.player_to_session_map).Nodup →
      lookupAssoc (SessionManager.removeSessionCleanup
          m ps).player_to_session_map p =
        if p ∈ keysOf ps then none
        else lookupAssoc m.player_to_session_map p := by
  intro ps
  induction ps with
  | nil => intro m p hnd; simp [SessionManager.removeSessionCleanup]
  | cons hd tl ih =>
    intro m p hnd
    obtain ⟨pid, pd⟩ := hd
    simp only [SessionManager.removeSessionCleanup]
    rw [ih _ p (nodup_keysOf_eraseAssoc hnd)]
    by_cases hp : p ∈ keysOf tl
    · simp [hp]
    · by_cases hpe : p = pid
      · subst hpe
        simp [hp, lookupAssoc_erase_self hnd]
      · simp [hp, hpe, lookupAssoc_erase_ne _ hpe]

theorem registryInv_remove_session {m : SessionManager} (h : RegistryInv m)
    (sid reason : String) : RegistryInv (m.remove_session sid reason).2 := by
  obtain ⟨⟨hs, hp, hr, hfz⟩, hc1, hc2⟩ := h
  cases hlook : lookupAssoc m.sessions sid with
  | none =>
    simp only [SessionManager.remove_session, hlook]
    exact ⟨⟨hs, hp, hr, hfz⟩, hc1, hc2⟩
  | some sess =>
    simp only [SessionManager.remove_session, hlook]
    have hsess := removeSessionCleanup_sessions sess.players
      { m with sessions := eraseAssoc m.sessions sid }
    have hnid := removeSessionCleanup_nid sess.players
      { m with sessions := eraseAssoc m.sessions sid }
    have hpml := fun p => removeSessionCleanup_pm_lookup sess.players
      { m with sessions := eraseAssoc m.sessions sid } p hp
    have hpmn := removeSessionCleanup_pm_nodup sess.players
      { m with sessions := eraseAssoc m.sessions sid } hp
    refine ⟨⟨?_, hpmn, ?_, ?_⟩, ?_, ?_⟩
    · rw [hsess]
      exact nodup_keysOf_eraseAssoc hs
    · intro s g hg
      rw [hsess] at hg
      exact hr s g (lookupAssoc_erase_some hs hg).2
    · intro j hj
      rw [hsess]
      rw [hnid] at hj
      exact lookupAssoc_erase_none hs (hfz j hj)
    · intro p s hps
      rw [hpml p] at hps
      by_cases hmem : p ∈ keysOf sess.players
      · rw [if_pos hmem] at hps; cases hps
      · rw [if_neg hmem] at hps
        obtain ⟨g, hg, hpg⟩ := hc1 p s hps
        have hne : s ≠ sid := by
          intro hh
          subst hh
          rw [hlook] at hg
          injection hg with hg2
          subst hg2
          exact hmem (isSome_lookupAssoc_iff_mem.mp hpg)
        refine ⟨g, ?_, hpg⟩
        rw [hsess]
        rwa [lookupAssoc_erase_ne _ hne]
    · intro s g p hg hpg
      rw [hsess] at hg
      obtain ⟨hne, hg2⟩ := lookupAssoc_erase_some hs hg
      have hpm2 := hc2 s g p hg2 hpg
      rw [hpml p]
      have hmem : p ∉ keysOf sess.players := by
        intro hmem
        have hps2 := hc2 sid sess p hlook
          (isSome_lookupAssoc_iff_mem.mpr hmem)
        rw [hpm2] at hps2
        injection hps2 with hh
        exact hne hh
      rw [if_neg hmem]
      exact hpm2

/-- Roster entry value built by GameSession::add_player. -/
def PlayerData.make (tid addr : String) (udp : Bool) : PlayerData :=
  { tank_id := tid, address_info := addr, is_udp_player := udp }

theorem registryInv_join {sessions : List (String × GameSession)}
    {pm : List (String × String)} {nid : Nat} {sid pid : String}
    {sess : GameSession} (pd : PlayerData)
    (hs : (keysOf sessions).Nodup) (hp : (keysOf pm).Nodup)
    (hr : ∀ s g, lookupAssoc sessions s = some g → (keysOf g.players).Nodup)
    (hfz : ∀ j, nid ≤ j →
      lookupAssoc sessions (SessionManager.mkSessionId j) = none)
    (hc1 : ∀ p s, lookupAssoc pm p = some s →
      ∃ g, lookupAssoc sessions s = some g ∧
        (lookupAssoc g.players p).isSome = true)
    (hc2 : ∀ s g p, lookupAssoc sessions s = some g →
      (lookupAssoc g.players p).isSome = true →
      lookupAssoc pm p = some s)
    (hsess : lookupAssoc sessions sid = some sess)
    (hpmn : lookupAssoc pm pid = none) :
    (keysOf (updateAssoc sessions sid
      { sess with players := updateAssoc sess.players pid pd })).Nodup ∧
    (keysOf (updateAssoc pm pid sid)).Nodup ∧
    (∀ s g, lookupAssoc (updateAssoc sessions sid
        { sess with players := updateAssoc sess.players pid pd }) s =
          some g → (keysOf g.players).Nodup) ∧
    (∀ j, nid ≤ j → lookupAssoc (updateAssoc sessions sid
        { sess with players := updateAssoc sess.players pid pd })
        (SessionManager.mkSessionId j) = none) ∧
    (∀ p s, lookupAssoc (updateAssoc pm pid sid) p = some s →
      ∃ g, lookupAssoc (updateAssoc sessions sid
          { sess with players := updateAssoc sess.players pid pd }) s =
            some g ∧
        (lookupAssoc g.players p).isSome = true) ∧
    (∀ s g p, lookupAssoc (updateAssoc sessions sid
        { sess with players := updateAssoc sess.players pid pd }) s =
          some g →
      (lookupAssoc g.players p).isSome = true →
      lookupAssoc (updateAssoc pm pid sid) p = some s) := by
  refine ⟨nodup_keysOf_updateAssoc _ hs, nodup_keysOf_updateAssoc _ hp,
    ?_, ?_, ?_, ?_⟩
  · intro s g hg
    rcases lookupAssoc_update_some hg with ⟨hse, hge⟩ | ⟨hne, hg2⟩
    · rw [hge]
      exact nodup_keysOf_updateAssoc _ (hr sid sess hsess)
    · exact hr s g hg2
  · intro j hj
    have hne : SessionManager.mkSessionId j ≠ sid := by
      intro hh
      have h0 := hfz j hj
      rw [hh, hsess] at h0
      cases h0
    rw [lookupAssoc_update_ne _ _ hne]
    exact hfz j hj
  · intro q s hqs
    rcases lookupAssoc_update_some hqs with ⟨hqe, hse⟩ | ⟨hne, hq2⟩
    · rw [hqe, hse]
      refine ⟨_, lookupAssoc_update_self _ _ _, ?_⟩
      rw [lookupAssoc_update_self]
      rfl
    · obtain ⟨g, hg, hpg⟩ := hc1 q s hq2
      by_cases hss : s = sid
      · rw [hss, hsess] at hg
        injection hg with hg2
        rw [hss]
        refine ⟨_, lookupAssoc_update_self _ _ _, ?_⟩
        rw [lookupAssoc_update_ne _ _ hne]
        rw [hg2]
        exact hpg
      · exact ⟨g, by rwa [lookupAssoc_update_ne _ _ hss], hpg⟩
  · intro s g q hg hqg
    rcases lookupAssoc_update_some hg with ⟨hse, hge⟩ | ⟨hne, hg2⟩
    · rw [hge] at hqg
      rw [hse]
      by_cases hq : q = pid
      · rw [hq, lookupAssoc_update_self]
      · rw [lookupAssoc_update_ne _ _ hq] at hqg
        have h2 := hc2 sid sess q hsess hqg
        rw [lookupAssoc_update_ne _ _ hq]
        exact h2
    · have hqs := hc2 s g q hg2 hqg
      have hq : q ≠ pid := by
        intro hh
        rw [hh, hpmn] at hqs
        cases hqs
      rwa [lookupAssoc_update_ne _ _ hq]

theorem registryInv_leave {sessions : List (String × GameSession)}
    {pm : List (String × String)} {nid : Nat} {sid pid : String}
    {sess : GameSession}
    (hs : (keysOf sessions).Nodup) (hp : (keysOf pm).Nodup)
    (hr : ∀ s g, lookupAssoc sessions s = some g → (keysOf g.players).Nodup)
    (hfz : ∀ j, nid ≤ j →
      lookupAssoc sessions (SessionManager.mkSessionId j) = none)
    (hc1 : ∀ p s, lookupAssoc pm p = some s →
      ∃ g, lookupAssoc sessions s = some g ∧
        (lookupAssoc g.players p).isSome = true)
    (hc2 : ∀ s g p, lookupAssoc sessions s = some g →
      (lookupAssoc g.players p).isSome = true →
      lookupAssoc pm p = some s)
    (hsess : lookupAssoc sessions sid = some sess)
    (hpm : lookupAssoc pm pid = some sid) :
    (keysOf (updateAssoc sessions sid
      { sess with players := eraseAssoc sess.players pid })).Nodup ∧
    (keysOf (eraseAssoc pm pid)).Nodup ∧
    (∀ s g, lookupAssoc (updateAssoc sessions sid
        { sess with players := eraseAssoc sess.players pid }) s = some g →
      (keysOf g.players).Nodup) ∧
    (∀ j, nid ≤ j → lookupAssoc (updateAssoc sessions sid
        { sess with players := eraseAssoc sess.players pid })
        (SessionManager.mkSessionId j) = none) ∧
    (∀ p s, lookupAssoc (eraseAssoc pm pid) p = some s →
      ∃ g, lookupAssoc (updateAssoc sessions sid
          { sess with players := eraseAssoc sess.players pid }) s =
            some g ∧
        (lookupAssoc g.players p).isSome = true) ∧
    (∀ s g p, lookupAssoc (updateAssoc sessions sid
        { sess with players := eraseAssoc sess.players pid }) s = some g →
      (lookupAssoc g.players p).isSome = true →
      lookupAssoc (eraseAssoc pm pid) p = some s) := by
  refine ⟨nodup_keysOf_updateAssoc _ hs, nodup_keysOf_eraseAssoc hp,
    ?_, ?_, ?_, ?_⟩
  · intro s g hg
    rcases lookupAssoc_update_some hg with ⟨hse, hge⟩ | ⟨hne, hg2⟩
    · rw [hge]
      exact nodup_keysOf_eraseAssoc (hr sid sess hsess)
    · exact hr s g hg2
  · intro j hj
    have hne : SessionManager.mkSessionId j ≠ sid := by
      intro hh
      have h0 := hfz j hj
      rw [hh, hsess] at h0
      cases h0
    rw [lookupAssoc_update_ne _ _ hne]
    exact hfz j hj
  · intro q s hqs
    obtain ⟨hqne, hq2⟩ := lookupAssoc_erase_some hp hqs
    obtain ⟨g, hg, hpg⟩ := hc1 q s hq2
    by_cases hss : s = sid
    · rw [hss, hsess] at hg
      injection hg with hg2
      rw [hss]
      refine ⟨_, lookupAssoc_update_self _ _ _, ?_⟩
      rw [lookupAssoc_erase_ne _ hqne, hg2]
      exact hpg
    · exact ⟨g, by rwa [lookupAssoc_update_ne _ _ hss], hpg⟩
  · intro s g q hg hqg
    rcases lookupAssoc_update_some hg with ⟨hse, hge⟩ | ⟨hne, hg2⟩
    · rw [hge] at hqg
      have hqne : q ≠ pid := by
        intro hh
        rw [hh] at hqg
        rw [lookupAssoc_erase_self (hr sid sess hsess)] at hqg
        cases hqg
      rw [lookupAssoc_erase_ne _ hqne] at hqg
      have h2 := hc2 sid sess q hsess hqg
      rw [hse, lookupAssoc_erase_ne _ hqne]
      exact h2
    · have hqs := hc2 s g q hg2 hqg
      have hqne : q ≠ pid := by
        intro hh
        rw [hh, hpm] at hqs
        injection hqs with hq3
        exact hne hq3.symm
      rwa [lookupAssoc_erase_ne _ hqne]

theorem registryInv_remove_player {m : SessionManager} (h : RegistryInv m)
    (pid : String) : RegistryInv (m.remove_player_from_any_session pid).2 := by
  obtain ⟨⟨hs, hp, hr, hfz⟩, hc1, hc2⟩ := h
  cases hpm : lookupAssoc m.player_to_session_map pid with
  | none =>
    simp only [SessionManager.remove_player_from_any_session, hpm]
    exact ⟨⟨hs, hp, hr, hfz⟩, hc1, hc2⟩
  | some sid =>
    cases hsess : lookupAssoc m.sessions sid with
    | none =>
      simp only [SessionManager.remove_player_from_any_session, hpm, hsess]
      refine ⟨⟨hs, nodup_keysOf_eraseAssoc hp, hr, hfz⟩, ?_, ?_⟩
      · intro q s hqs
        exact hc1 q s (lookupAssoc_erase_some hp hqs).2
      · intro s g q hg hqg
        have hq2 := hc2 s g q hg hqg
        have hqne : q ≠ pid := by
          intro hh
          rw [hh, hpm] at hq2
          injection hq2 with hq3
          rw [← hq3] at hg
          rw [hsess] at hg
          cases hg
        rwa [lookupAssoc_erase_ne _ hqne]
    | some sess =>
      cases hnp : lookupAssoc sess.players pid with
      | none =>
        have hrem : sess.remove_player pid = (false, sess) := by
          simp [GameSession.remove_player, hnp]
        simp only [SessionManager.remove_player_from_any_session, hpm,
          hsess, hrem, Bool.false_eq_true, if_false]
        exact ⟨⟨hs, hp, hr, hfz⟩, hc1, hc2⟩
      | some d =>
        have htank : sess.get_tank_for_player pid = some d.tank_id := by
          simp [GameSession.get_tank_for_player, hnp]
        have hrem : sess.remove_player pid =
            (true, { sess with players := eraseAssoc sess.players pid }) := by
          simp [GameSession.remove_player, hnp]
        have hl := registryInv_leave hs hp hr hfz hc1 hc2 hsess hpm
        simp only [SessionManager.remove_player_from_any_session, hpm,
          hsess, htank, hrem, if_true]
        by_cases hemp :
            ({ sess with players := eraseAssoc sess.players pid } :
              GameSession).is_empty = true
        · simp only [hemp, if_true, reduceIte]
          exact registryInv_remove_session
            ⟨⟨hl.1, hl.2.1, hl.2.2.1, hl.2.2.2.1⟩, hl.2.2.2.2.1,
             hl.2.2.2.2.2⟩ sid "became_empty_after_player_left"
        · simp only [hemp, Bool.false_eq_true, if_false, reduceIte]
          exact ⟨⟨hl.1, hl.2.1, hl.2.2.1, hl.2.2.2.1⟩, hl.2.2.2.2.1,
             hl.2.2.2.2.2⟩

theorem registryInv_add_player {m : SessionManager} (h : RegistryInv m)
    (sid pid addr : String) (tank : Option String) (udp : Bool) :
    RegistryInv (m.add_player_to_session sid pid addr tank udp).2 := by
  obtain ⟨⟨hs, hp, hr, hfz⟩, hc1, hc2⟩ := h
  have hcore : ∀ tid,
      (lookupAssoc m.player_to_session_map pid = none ∨
       lookupAssoc m.player_to_session_map pid = some sid) →
      RegistryInv (m.addPlayerCore sid pid addr tid udp).2 := by
    intro tid hpm
    cases hsess : lookupAssoc m.sessions sid with
    | none =>
      simp only [SessionManager.addPlayerCore, hsess]
      exact ⟨⟨hs, hp, hr, hfz⟩, hc1, hc2⟩
    | some sess =>
      cases hnp : lookupAssoc sess.players pid with
      | some d =>
        have hfail : (sess.add_player pid addr (some tid) udp).1 = false := by
          simp [GameSession.add_player, hnp]
        simp only [SessionManager.addPlayerCore, hsess, hfail,
          Bool.false_eq_true, if_false]
        by_cases hhp : sess.has_player pid = true <;>
          simp only [hhp, Bool.false_eq_true, if_false, if_true] <;>
          exact ⟨⟨hs, hp, hr, hfz⟩, hc1, hc2⟩
      | none =>
        have hpmn : lookupAssoc m.player_to_session_map pid = none := by
          rcases hpm with hpm | hpm
          · exact hpm
          · obtain ⟨g, hg, hpg⟩ := hc1 pid sid hpm
            rw [hsess] at hg
            injection hg with hg2
            subst hg2
            rw [hnp] at hpg
            cases hpg
        have hadd : sess.add_player pid addr (some tid) udp =
            (true, { sess with
              players := updateAssoc sess.players pid (PlayerData.make tid addr udp) }) := by
          simp [GameSession.add_player, hnp, PlayerData.make]
        simp only [SessionManager.addPlayerCore, hsess, hadd, if_true]
        have hj := registryInv_join (PlayerData.make tid addr udp) hs hp hr
          hfz hc1 hc2 hsess hpmn
        exact ⟨⟨hj.1, hj.2.1, hj.2.2.1, hj.2.2.2.1⟩, hj.2.2.2.2.1,
          hj.2.2.2.2.2⟩
  cases tank with
  | none =>
    simp only [SessionManager.add_player_to_session]
    exact ⟨⟨hs, hp, hr, hfz⟩, hc1, hc2⟩
  | some tid =>
    cases hpm : lookupAssoc m.player_to_session_map pid with
    | some existing =>
      by_cases hex : existing = sid
      · subst hex
        simp only [SessionManager.add_player_to_session, hpm, ne_eq,
          not_true, if_false, reduceIte]
        exact hcore tid (Or.inr hpm)
      · simp only [SessionManager.add_player_to_session, hpm, ne_eq, hex,
          not_false_iff, if_true, reduceIte]
        exact ⟨⟨hs, hp, hr, hfz⟩, hc1, hc2⟩
    | none =>
      simp only [SessionManager.add_player_to_session, hpm]
      exact hcore tid (Or.inl hpm)

/-- The first registered session (in registry order) whose roster size is
strictly below the cap: the session find_or_create joins per the spec. -/
def firstFit (maxp : Nat) : List (String × GameSession) →
    Option (String × GameSession)
  | [] => none
  | (sid, s) :: rest =>
    if s.get_players_count < maxp then some (sid, s) else firstFit maxp rest

theorem firstFit_mem (maxp : Nat) :
    ∀ (l : List (String × GameSession)) (sid : String) (sess : GameSession),
      firstFit maxp l = some (sid, sess) → (sid, sess) ∈ l := by
  intro l
  induction l with
  | nil => intro sid sess h; simp [firstFit] at h
  | cons hd tl ih =>
    intro sid sess h
    obtain ⟨sid0, s0⟩ := hd
    by_cases hc : s0.get_players_count < maxp
    · simp only [firstFit, if_pos hc, Option.some.injEq] at h
      rw [← h]
      exact List.mem_cons_self _ _
    · simp only [firstFit, if_neg hc] at h
      exact List.mem_cons_of_mem _ (ih sid sess h)

theorem updateAssoc_updateAssoc {α : Type} (l : List (String × α))
    (k : String) (v v2 : α) :
    updateAssoc (updateAssoc l k v) k v2 = updateAssoc l k v2 := by
  induction l with
  | nil => simp [updateAssoc]
  | cons hd tl ih =>
    obtain ⟨k0, v0⟩ := hd
    by_cases h : k0 = k <;> simp [updateAssoc, h, ih]

theorem scanSessions_characterization (pid addr tid : String) (udp : Bool)
    (maxp : Nat) :
    ∀ l : List (String × GameSession),
      (keysOf l).Nodup →
      (∀ e ∈ l, lookupAssoc e.2.players pid = none) →
      ((firstFit maxp l = none →
          SessionManager.scanSessions pid addr tid udp maxp l = none) ∧
       (∀ sid sess, firstFit maxp l = some (sid, sess) →
          SessionManager.scanSessions pid addr tid udp maxp l =
            some (sid, (sess.add_player pid addr (some tid) udp).2,
              updateAssoc l sid
                (sess.add_player pid addr (some tid) udp).2))) := by
  intro l
  induction l with
  | nil =>
    intro _ _
    exact ⟨fun _ => rfl, fun sid sess h => by simp [firstFit] at h⟩
  | cons hd tl ih =>
    intro hnd hfresh
    obtain ⟨sid0, s0⟩ := hd
    simp only [keysOf_cons, List.nodup_cons] at hnd
    have hfresh0 : lookupAssoc s0.players pid = none :=
      hfresh (sid0, s0) (by simp)
    have hfreshtl : ∀ e ∈ tl, lookupAssoc e.2.players pid = none :=
      fun e he => hfresh e (List.mem_cons_of_mem _ he)
    have ihr := ih hnd.2 hfreshtl
    by_cases hc : s0.get_players_count < maxp
    · have hadd : (s0.add_player pid addr (some tid) udp).1 = true := by
        simp [GameSession.add_player, hfresh0]
      constructor
      · intro hff
        simp [firstFit, hc] at hff
      · intro sid sess hff
        simp only [firstFit, if_pos hc, Option.some.injEq] at hff
        injection hff with h1 h2
        subst h1; subst h2
        simp only [SessionManager.scanSessions, if_pos hc, hadd, if_true]
        simp [updateAssoc]
    · constructor
      · intro hff
        simp only [firstFit, if_neg hc] at hff
        simp only [SessionManager.scanSessions, if_neg hc, ihr.1 hff]
      · intro sid sess hff
        simp only [firstFit, if_neg hc] at hff
        have hne : sid0 ≠ sid := by
          intro hh
          exact hnd.1 (by
            have := firstFit_mem maxp tl sid sess hff
            have : sid ∈ keysOf tl := by
              simpa [keysOf] using List.mem_map_of_mem Prod.fst this
            simpa [hh] using this)
        simp only [SessionManager.scanSessions, if_neg hc, ihr.2 sid sess hff]
        simp [updateAssoc, hne]

theorem registryInv_find_or_create {m : SessionManager} (h : RegistryInv m)
    (pid addr : String) (tank : Option String) (udp : Bool) (maxp : Nat) :
    RegistryInv
      (m.find_or_create_session_for_player pid addr tank udp maxp).2 := by
  obtain ⟨⟨hs, hp, hr, hfz⟩, hc1, hc2⟩ := h
  cases tank with
  | none =>
    simp only [SessionManager.find_or_create_session_for_player]
    exact ⟨⟨hs, hp, hr, hfz⟩, hc1, hc2⟩
  | some tid =>
    cases hpm : lookupAssoc m.player_to_session_map pid with
    | some existing =>
      simp only [SessionManager.find_or_create_session_for_player, hpm]
      exact ⟨⟨hs, hp, hr, hfz⟩, hc1, hc2⟩
    | none =>
      have hfresh : ∀ e ∈ m.sessions, lookupAssoc e.2.players pid = none := by
        intro e he
        cases hl : lookupAssoc e.2.players pid with
        | none => rfl
        | some v =>
          have hlook := lookupAssoc_of_mem_nodup hs he
          have h2 := hc2 e.1 e.2 pid hlook (by rw [hl]; rfl)
          rw [hpm] at h2
          cases h2
      have hchar := scanSessions_characterization pid addr tid udp maxp
        m.sessions hs hfresh
      cases hff : firstFit maxp m.sessions with
      | some pr =>
        obtain ⟨sid, sess⟩ := pr
        have hsess : lookupAssoc m.sessions sid = some sess :=
          lookupAssoc_of_mem_nodup hs (firstFit_mem maxp _ sid sess hff)
        have hnp : lookupAssoc sess.players pid = none :=
          hfresh (sid, sess) (firstFit_mem maxp _ sid sess hff)
        have hadd : sess.add_player pid addr (some tid) udp =
            (true, { sess with
              players := updateAssoc sess.players pid (PlayerData.make tid addr udp) }) := by
          simp [GameSession.add_player, hnp, PlayerData.make]
        have hscan := hchar.2 sid sess hff
        simp only [SessionManager.find_or_create_session_for_player, hpm,
          hscan, hadd]
        have hj := registryInv_join (PlayerData.make tid addr udp) hs hp hr
          hfz hc1 hc2 hsess hpm
        exact ⟨⟨hj.1, hj.2.1, hj.2.2.1, hj.2.2.2.1⟩, hj.2.2.2.2.1,
          hj.2.2.2.2.2⟩
      | none =>
        have hscan := hchar.1 hff
        have hfr : lookupAssoc m.sessions
            (SessionManager.mkSessionId m.next_session_numeric_id) = none :=
          hfz _ (le_refl _)
        have hadd : (GameSession.add_player
            { session_id := SessionManager.mkSessionId m.next_session_numeric_id,
              players := [] } pid addr (some tid) udp) =
            (true,
             { session_id := SessionManager.mkSessionId m.next_session_numeric_id,
               players := [(pid, PlayerData.make tid addr udp)] }) := by
          simp [GameSession.add_player, lookupAssoc, updateAssoc,
            PlayerData.make]
        simp only [SessionManager.find_or_create_session_for_player, hpm,
          hscan, hadd, if_true, updateAssoc_updateAssoc]
        refine ⟨⟨nodup_keysOf_updateAssoc _ hs,
          nodup_keysOf_updateAssoc _ hp, ?_, ?_⟩, ?_, ?_⟩
        · intro s g hg
          rcases lookupAssoc_update_some hg with ⟨hse, hge⟩ | ⟨hne, hg2⟩
          · rw [hge]
            simp
          · exact hr s g hg2
        · intro j hj
          dsimp only at hj ⊢
          have hne : SessionManager.mkSessionId j ≠
              SessionManager.mkSessionId m.next_session_numeric_id := by
            intro hh
            have := mkSessionId_injective hh
            omega
          rw [lookupAssoc_update_ne _ _ hne]
          exact hfz j (by omega)
        · intro q s hqs
          rcases lookupAssoc_update_some hqs with ⟨hqe, hse⟩ | ⟨hqne, hq2⟩
          · rw [hqe, hse]
            refine ⟨_, lookupAssoc_update_self _ _ _, ?_⟩
            simp [lookupAssoc]
          · obtain ⟨g, hg, hpg⟩ := hc1 q s hq2
            have hsne : s ≠
                SessionManager.mkSessionId m.next_session_numeric_id := by
              intro hh
              rw [hh, hfr] at hg
              cases hg
            exact ⟨g, by rwa [lookupAssoc_update_ne _ _ hsne], hpg⟩
        · intro s g q hg hqg
          rcases lookupAssoc_update_some hg with ⟨hse, hge⟩ | ⟨hsne, hg2⟩
          · rw [hge] at hqg
            have hq : q = pid := by
              by_contra hq
              have hpq : pid ≠ q := fun hh => hq hh.symm
              have hnone : lookupAssoc
                  [(pid, PlayerData.make tid addr udp)] q = none := by
                simp [lookupAssoc, hpq]
              rw [hnone] at hqg
              cases hqg
            rw [hq, hse, lookupAssoc_update_self]
          · have hqs := hc2 s g q hg2 hqg
            have hq : q ≠ pid := by
              intro hh
              rw [hh, hpm] at hqs
              cases hqs
            rwa [lookupAssoc_update_ne _ _ hq]

/-- Every SessionManager call keeps the registry invariant. -/
theorem registryInv_step {m : SessionManager} (h : RegistryInv m)
    (op : SMOp) : RegistryInv (m.step op) := by
  cases op with
  | createSession => exact registryInv_create_session h
  | addPlayer sid pid addr tank udp =>
      exact registryInv_add_player h sid pid addr tank udp
  | removePlayer pid => exact registryInv_remove_player h pid
  | removeSession sid reason => exact registryInv_remove_session h sid reason
  | findOrCreate pid addr tank udp maxp =>
      exact registryInv_find_or_create h pid addr tank udp maxp

theorem registryInv_runOps {m : SessionManager} (h : RegistryInv m) :
    ∀ ops : List SMOp, RegistryInv (m.runOps ops) := by
  intro ops
  induction ops generalizing m with
  | nil => exact h
  | cons op rest ih => exact ih (registryInv_step h op)

/-- C1: in every state reachable from a fresh SessionManager by sequences
of create_session, add_player_to_session, remove_player_from_any_session,
remove_session and find_or_create_session_for_player calls, every entry
(p, s) of player_to_session_map points to a registered session whose
roster contains p, and conversely every roster entry of every registered
session is indexed back to exactly that session. -/
theorem sessionManager_bijection_invariant (pool : TankPool)
    (ops : List SMOp) :
    Consistent ((SessionManager.start pool).runOps ops) :=
  (registryInv_runOps (registryInv_start pool) ops).2

/-- First of the three C8 scenario joins on a fresh registry. -/
def scenarioM1 : SessionManager :=
  ((SessionManager.start (TankPool.create 0)).find_or_create_session_for_player
    "p1" "a1" (some "t1") true 2).2

/-- Second C8 scenario join. -/
def scenarioM2 : SessionManager :=
  (scenarioM1.find_or_create_session_for_player "p2" "a2" (some "t2") true 2).2

/-- Third C8 scenario join. -/
def scenarioM3 : SessionManager :=
  (scenarioM2.find_or_create_session_for_player "p3" "a3" (some "t3") true 2).2

/-- C8: for a player not already mapped, find_or_create_session_for_player
joins the first registered session (in registry order) whose roster size is
strictly below max_players, and creates and joins a brand-new session
exactly when no session qualifies; in particular, with max_players = 2 on a
fresh registry, p1 and p2 land in the same newly created session_0 and p3
triggers creation of session_1 because session_0 holds 2 players. -/
theorem find_or_create_first_fit (m : SessionManager)
    (pid addr tid : String) (udp : Bool) (maxp : Nat)
    (hnd : (keysOf m.sessions).Nodup)
    (hpm : lookupAssoc m.player_to_session_map pid = none)
    (hfresh : ∀ e ∈ m.sessions, lookupAssoc e.2.players pid = none) :
    (∀ sid sess, firstFit maxp m.sessions = some (sid, sess) →
      m.find_or_create_session_for_player pid addr (some tid) udp maxp =
        (some (sess.add_player pid addr (some tid) udp).2,
         { m with
           sessions := updateAssoc m.sessions sid
             (sess.add_player pid addr (some tid) udp).2,
           player_to_session_map :=
             updateAssoc m.player_to_session_map pid sid,
           events := m.events ++ [.playerJoinedSession pid sid tid] })) ∧
    (firstFit maxp m.sessions = none →
      m.find_or_create_session_for_player pid addr (some tid) udp maxp =
        (some { session_id :=
                  SessionManager.mkSessionId m.next_session_numeric_id,
                players := [(pid, PlayerData.make tid addr udp)] },
         { m with
           sessions := updateAssoc m.sessions
             (SessionManager.mkSessionId m.next_session_numeric_id)
             { session_id :=
                 SessionManager.mkSessionId m.next_session_numeric_id,
               players := [(pid, PlayerData.make tid addr udp)] },
           player_to_session_map := updateAssoc m.player_to_session_map pid
             (SessionManager.mkSessionId m.next_session_numeric_id),
           next_session_numeric_id := m.next_session_numeric_id + 1,
           events := m.events ++
             [.sessionCreated
                (SessionManager.mkSessionId m.next_session_numeric_id),
              .playerJoinedSession pid
                (SessionManager.mkSessionId m.next_session_numeric_id)
                tid] })) ∧
    (lookupAssoc scenarioM2.player_to_session_map "p1" = some "session_0" ∧
     lookupAssoc scenarioM2.player_to_session_map "p2" = some "session_0" ∧
     (lookupAssoc scenarioM2.sessions "session_0").map
       GameSession.get_players_count = some 2 ∧
     lookupAssoc scenarioM3.player_to_session_map "p3" = some "session_1" ∧
     keysOf scenarioM3.sessions = ["session_0", "session_1"]) := by
  have hchar := scanSessions_characterization pid addr tid udp maxp
    m.sessions hnd hfresh
  refine ⟨?_, ?_, by decide, by decide, by decide, by decide, by decide⟩
  · intro sid sess hff
    simp only [SessionManager.find_or_create_session_for_player, hpm,
      hchar.2 sid sess hff]
  · intro hff
    have hscan := hchar.1 hff
    simp only [SessionManager.find_or_create_session_for_player, hpm, hscan]
    have hadd :
        (GameSession.add_player
          { session_id := SessionManager.mkSessionId m.next_session_numeric_id,
            players := [] } pid addr (some tid) udp) =
        (true,
         { session_id := SessionManager.mkSessionId m.next_session_numeric_id,
           players := [(pid, PlayerData.make tid addr udp)] }) := by
      simp [GameSession.add_player, lookupAssoc, updateAssoc, PlayerData.make]
    simp only [hadd, if_true, updateAssoc_updateAssoc]

/-- Witness for C8 on an empty registry (create branch) for p1. -/
theorem find_or_create_first_fit_witness :
    ((keysOf (SessionManager.start (TankPool.create 0)).sessions).Nodup ∧
     lookupAssoc
       (SessionManager.start (TankPool.create 0)).player_to_session_map
       "p1" = none) ∧
    (firstFit 2 (SessionManager.start (TankPool.create 0)).sessions = none →
      (SessionManager.start (TankPool.create 0)).find_or_create_session_for_player
          "p1" "a1" (some "t1") true 2 =
        (some { session_id := SessionManager.mkSessionId 0,
                players := [("p1", PlayerData.make "t1" "a1" true)] },
         { SessionManager.start (TankPool.create 0) with
           sessions := updateAssoc
             (SessionManager.start (TankPool.create 0)).sessions
             (SessionManager.mkSessionId 0)
             { session_id := SessionManager.mkSessionId 0,
               players := [("p1", PlayerData.make "t1" "a1" true)] },
           player_to_session_map := updateAssoc
             (SessionManager.start (TankPool.create 0)).player_to_session_map
             "p1" (SessionManager.mkSessionId 0),
           next_session_numeric_id := 1,
           events := (SessionManager.start (TankPool.create 0)).events ++
             [.sessionCreated (SessionManager.mkSessionId 0),
              .playerJoinedSession "p1" (SessionManager.mkSessionId 0)
                "t1"] })) :=
  ⟨⟨by decide, by decide⟩,
   (find_or_create_first_fit (SessionManager.start (TankPool.create 0))
     "p1" "a1" "t1" true 2 (by decide) (by decide)
     (by intro e he; simp [SessionManager.start] at he)).2.1⟩

/-- C6: on a fresh pool of capacity 2, the first two acquisitions succeed
with distinct tanks (both active, default position and health), the third
fails, and after releasing the first tank the next acquisition returns that
same tank with default position, default health 100 and active = true. -/
theorem tankPool_capacity_two_scenario :
    (TankPool.create 2).acquire_tank.1 =
      some { tank_id := "tank_1", position := defaultPosition,
             health := defaultHealth, is_active := true } ∧
    (TankPool.create 2).acquire_tank.2.acquire_tank.1 =
      some { tank_id := "tank_0", position := defaultPosition,
             health := defaultHealth, is_active := true } ∧
    ("tank_1" : String) ≠ "tank_0" ∧
    (TankPool.create 2).acquire_tank.2.acquire_tank.2.acquire_tank.1 = none ∧
    (((TankPool.create 2).acquire_tank.2.acquire_tank.2.release_tank
        "tank_1").acquire_tank).1 =
      some { tank_id := "tank_1", position := defaultPosition,
             health := defaultHealth, is_active := true } := by
  refine ⟨by decide, by decide, by decide, by decide, by decide⟩

end TanksBlitz
